import Mathlib

/-!
Shallow embedding of the codaapps batch extraction engine and
change-detection scheduler (src/batch_processor.py, src/sync_manager.py,
src/scraper.py, src/coda_pack.py), together with theorems checking the
natural-language specification's claims against it.

External capabilities (aiohttp fetches, BeautifulSoup / trafilatura
extraction, hashlib.sha256) are modelled as injected oracles; Python dicts
are modelled as insertion-ordered association lists; the asyncio event
loop is abstracted to the pure data flow the source implements (progress
counter increments commute, and `asyncio.gather` preserves task order).
-/

namespace Codaapps

/-- Python's substring test `needle in hay` (`str.__contains__`), on char lists. -/
def subList (needle : List Char) : List Char → Bool
  | [] => needle.isEmpty
  | c :: rest => needle.isPrefixOf (c :: rest) || subList needle rest

/-- Python `needle in hay` for strings. -/
def pyInStr (needle hay : String) : Bool := subList needle.toList hay.toList

/-- Python `str.lower()` (per-character ASCII case folding in this model). -/
def pyLower (s : String) : String := String.mk (s.toList.map Char.toLower)

/-- Python regex `\s` / `str.strip()` whitespace characters. -/
def isPySpace (c : Char) : Bool :=
  c == ' ' || c == '\t' || c == '\n' || c == '\r' || c == Char.ofNat 11 || c == Char.ofNat 12

/-- Python `str.strip()`: drop whitespace from both ends. -/
def pyStrip (s : String) : String :=
  String.mk (((s.toList.dropWhile isPySpace).reverse.dropWhile isPySpace).reverse)

/-- The repository's error convention: `content.startswith("Error:")`, used by
`sync_manager.py` to count failures and by `main.py` to drop error rows. -/
def isErrorContent (s : String) : Bool := "Error:".toList.isPrefixOf s.toList

/-- Decimal digit-string parse backing the `int(...)` model. -/
def pyDigits? (cs : List Char) : Option Nat :=
  if cs.isEmpty then none
  else if cs.all Char.isDigit then
    some (cs.foldl (fun n c => n * 10 + (c.toNat - 48)) 0)
  else none

/-- Python `int(...)` on a string (plain decimal literals, optionally signed),
raising `ValueError` on a non-numeric literal. -/
def pyInt (s : String) : Except String Int :=
  match s.toList with
  | '-' :: rest =>
    match pyDigits? rest with
    | some n => Except.ok (-(n : Int))
    | none => Except.error s!"invalid literal for int() with base 10: \x27{s}\x27"
  | cs =>
    match pyDigits? cs with
    | some n => Except.ok (n : Int)
    | none => Except.error s!"invalid literal for int() with base 10: \x27{s}\x27"

/-- Truthiness of an `Optional[str]` (Python: `None` and `""` are falsy). -/
def optStrTruthy : Option String → Bool
  | none => false
  | some s => !(s == "")

/-! ## src/batch_processor.py -/

/-- `BatchProgress` dataclass of `batch_processor.py`. -/
structure BatchProgress where
  total_urls : Nat
  processed_urls : Nat := 0
  failed_urls : Nat := 0
  current_batch : Nat := 0
  total_batches : Nat := 0
deriving DecidableEq

/-- The `content_selector: Optional[Union[str, List[str]]]` argument shape. -/
inductive SelectorArg where
  | str (s : String)
  | list (l : List String)
deriving DecidableEq

/-- Truthiness of the `content_selector` argument (Python: `None`, `""`, `[]` falsy). -/
def selectorTruthy : Option SelectorArg → Bool
  | none => false
  | some (.str s) => !(s == "")
  | some (.list l) => !l.isEmpty

/-- `selectors = [content_selector] if isinstance(content_selector, str) else content_selector`. -/
def selectorArgList : Option SelectorArg → List String
  | some (.str s) => [s]
  | some (.list l) => l
  | none => []

/-- External extraction capabilities used by `process_url`: `soup.select(...)` plus
`get_text`, and `trafilatura.extract`.  Both can raise (e.g. on malformed
selector syntax), which the `Except` value models. -/
structure Extractor where
  select : String → String → Except String (List String)
  trafilatura : String → Except String (Option String)

/-- Outcome of `session.get(url)` followed by `response.text()`: a status code
with a body, or a raised exception (connection error, invalid URL, ...). -/
inductive FetchOutcome where
  | ok (status : Nat) (body : String)
  | exn (msg : String)
deriving DecidableEq

/-- Keyword arguments threaded through `process_urls` / `process_batch` / `process_url`. -/
structure UrlArgs where
  content_selector : Option SelectorArg := none
  code_selector : Option String := none
  exclude_selector : Option String := none
  search_query : Option String := none
  content_filters : Option (List (String × String)) := none

/-- The content-selector loop of `process_url` (lines 44-49): for each selector,
select elements and keep each element text that is non-empty after stripping. -/
def collect_selected (ext : Extractor) (html : String) : List String → Except String (List String)
  | [] => Except.ok []
  | selector :: rest =>
    match ext.select html selector with
    | .error e => .error e
    | .ok elems =>
      match collect_selected ext html rest with
      | .error e => .error e
      | .ok more => .ok (elems.filter (fun t => !(pyStrip t == "")) ++ more)

/-- The code-selector step of `process_url` (lines 52-55), guarded by truthiness. -/
def collect_code (ext : Extractor) (html : String) : Option String → Except String (List String)
  | some c =>
    if !(c == "") then
      match ext.select html c with
      | .ok elems => .ok (elems.filter (fun t => !(pyStrip t == "")))
      | .error e => .error e
    else .ok []
  | none => .ok []

/-- The exclude-selector step of `process_url` (lines 58-60).  `decompose` runs
after content and code extraction, so it cannot change `text_content`; a
malformed selector can still raise. -/
def check_exclude (ext : Extractor) (html : String) : Option String → Except String Unit
  | some e =>
    if !(e == "") then
      match ext.select html e with
      | .ok _ => .ok ()
      | .error err => .error err
    else .ok ()
  | none => .ok ()

/-- Text extraction of `process_url` (lines 37-64): custom-selector path when any
selector is truthy, otherwise `trafilatura.extract(downloaded) or "No content found"`. -/
def extract_text_content (ext : Extractor) (html : String) (cs : Option SelectorArg)
    (cos es : Option String) : Except String String :=
  if selectorTruthy cs || optStrTruthy cos || optStrTruthy es then
    match (if selectorTruthy cs then collect_selected ext html (selectorArgList cs)
           else Except.ok []) with
    | .error e => .error e
    | .ok selContent =>
      match collect_code ext html cos with
      | .error e => .error e
      | .ok codeContent =>
        match check_exclude ext html es with
        | .error e => .error e
        | .ok _ =>
          let content := selContent ++ codeContent
          if content.isEmpty then .ok "No content found"
          else .ok (String.intercalate "\n\n" content)
  else
    match ext.trafilatura html with
    | .error e => .error e
    | .ok (some t) => if t == "" then .ok "No content found" else .ok t
    | .ok none => .ok "No content found"

/-- The filter loop of `process_url` (lines 73-81): iterate the supplied
`content_filters` items in order, short-circuiting on the first failing
filter; unrecognized filter kinds fall through the `elif` chain. -/
def apply_content_filters (text_content : String) :
    List (String × String) → Except String (Option String)
  | [] => Except.ok none
  | (filter_type, filter_value) :: rest =>
    if filter_type == "min_length" then
      match pyInt filter_value with
      | .error e => .error e
      | .ok n =>
        if (text_content.length : Int) < n then
          .ok (some s!"Content filtered: Too short (min: {filter_value})")
        else apply_content_filters text_content rest
    else if filter_type == "max_length" then
      match pyInt filter_value with
      | .error e => .error e
      | .ok n =>
        if (text_content.length : Int) > n then
          .ok (some s!"Content filtered: Too long (max: {filter_value})")
        else apply_content_filters text_content rest
    else if filter_type == "contains" then
      if !pyInStr (pyLower filter_value) (pyLower text_content) then
        .ok (some s!"Content filtered: Does not contain \x27{filter_value}\x27")
      else apply_content_filters text_content rest
    else if filter_type == "excludes" then
      if pyInStr (pyLower filter_value) (pyLower text_content) then
        .ok (some s!"Content filtered: Contains excluded text \x27{filter_value}\x27")
      else apply_content_filters text_content rest
    else apply_content_filters text_content rest

/-- Body of `process_url`'s `try` block: fetch, extract, search-filter, content-filter.
An `Except.error` models a raised exception reaching the `except` handler. -/
def process_url_body (ext : Extractor) (fetch : FetchOutcome) (a : UrlArgs) :
    Except String String :=
  match fetch with
  | .exn msg => .error msg
  | .ok status html =>
    if status == 200 then
      match extract_text_content ext html a.content_selector a.code_selector a.exclude_selector with
      | .error e => .error e
      | .ok text_content =>
        if optStrTruthy a.search_query && !(text_content == "No content found")
            && !(pyInStr (pyLower (a.search_query.getD "")) (pyLower text_content)) then
          .ok "Content filtered: Does not match search query"
        else
          let filters := a.content_filters.getD []
          if !filters.isEmpty && !(text_content == "No content found") then
            match apply_content_filters text_content filters with
            | .error e => .error e
            | .ok (some msg) => .ok msg
            | .ok none => .ok text_content
          else .ok text_content
    else .ok s!"Error: HTTP {status}"

/-- The value `process_url` stores under `url`: the `try` body's result, with a
raised exception caught and rendered as `f"Error: {str(e)}"`. -/
def url_value (ext : Extractor) (fetch : FetchOutcome) (a : UrlArgs) : String :=
  match process_url_body ext fetch a with
  | .ok v => v
  | .error e => s!"Error: {e}"

/-- The `finally` block: `self.progress.processed_urls += 1` when progress is set. -/
def increment_processed : Option BatchProgress → Option BatchProgress
  | none => none
  | some p => some { p with processed_urls := p.processed_urls + 1 }

/-- `self.progress.current_batch += 1` at the end of `process_batch`. -/
def increment_current_batch : Option BatchProgress → Option BatchProgress
  | none => none
  | some p => some { p with current_batch := p.current_batch + 1 }

/-- `process_url`: returns the singleton mapping `{url: value}` and runs the
`finally` counter update on every path (success, filtered, or error). -/
def process_url (ext : Extractor) (progress : Option BatchProgress) (url : String)
    (fetch : FetchOutcome) (a : UrlArgs) : Option BatchProgress × (String × String) :=
  (increment_processed progress, (url, url_value ext fetch a))

/-- Python `dict.update` with a single key: replace in place if present
(insertion order kept), else append. -/
def dict_update (d : List (String × String)) (kv : String × String) :
    List (String × String) :=
  if d.any (fun p => p.1 == kv.1) then
    d.map (fun p => if p.1 == kv.1 then kv else p)
  else d ++ [kv]

/-- `BatchProcessor.__init__` configuration (defaults `batch_size=10, max_concurrent=5`). -/
structure BatchProcessor where
  batch_size : Nat := 10
  max_concurrent : Nat := 5
deriving DecidableEq

/-- `process_batch`: one task per URL of the chunk, gathered, then merged in task
order into one dict; `current_batch` incremented.  `asyncio.gather` preserves
order and the per-task counter increments commute, so the sequential fold has
the same observable effect as the concurrent run. -/
def process_batch (ext : Extractor) (fetchOf : String → FetchOutcome)
    (progress : Option BatchProgress) (urls : List String) (a : UrlArgs) :
    Option BatchProgress × List (String × String) :=
  let res := urls.foldl (fun acc url =>
    let r := process_url ext acc.1 url (fetchOf url) a
    (r.1, dict_update acc.2 r.2)) (progress, [])
  (increment_current_batch res.1, res.2)

/-- Fuel-driven chunking; each step consumes at least one element when `n ≠ 0`,
so fuel `l.length` suffices. -/
def chunksOfAux (n : Nat) : Nat → List α → List (List α)
  | 0, _ => []
  | _, [] => []
  | fuel + 1, x :: xs => (x :: xs).take n :: chunksOfAux n fuel ((x :: xs).drop n)

/-- The slicing loop `urls[i : i + batch_size]` of `process_urls` (Python's
`range(0, len(urls), batch_size)` raises for a zero step, so only `n ≠ 0`
is meaningful). -/
def chunksOf (n : Nat) (l : List α) : List (List α) :=
  if n = 0 then [] else chunksOfAux n l.length l

/-- `total_batches = len(urls) // batch_size + (1 if len(urls) % batch_size else 0)`. -/
def total_batches_calc (numUrls batch_size : Nat) : Nat :=
  numUrls / batch_size + (if numUrls % batch_size ≠ 0 then 1 else 0)

/-- `process_urls`: initialize a fresh `BatchProgress`, then process the chunks
one at a time in order, merging each chunk's results into the running dict. -/
def process_urls (bp : BatchProcessor) (ext : Extractor) (fetchOf : String → FetchOutcome)
    (urls : List String) (a : UrlArgs) :
    Option BatchProgress × List (String × String) :=
  let progress0 : Option BatchProgress := some
    { total_urls := urls.length
      total_batches := total_batches_calc urls.length bp.batch_size }
  (chunksOf bp.batch_size urls).foldl (fun acc batch =>
    let r := process_batch ext fetchOf acc.1 batch a
    (r.1, r.2.foldl dict_update acc.2)) (progress0, [])

/-- Number of fetch+extract tasks `process_batch` has in flight at once for each
chunk: `asyncio.gather(*tasks)` starts every task of the chunk together and no
semaphore or worker pool limits them, so the fan-out is the chunk length. -/
def batch_task_fanout (bp : BatchProcessor) (urls : List String) : List Nat :=
  (chunksOf bp.batch_size urls).map List.length

/-! ## src/sync_manager.py -/

/-- One `tracked_urls` row for a config: its URL and stored fingerprint.
`(config_id, url)` is unique in the schema, so a config's rows have distinct URLs. -/
structure TrackedRow where
  url : String
  last_content_hash : Option String
deriving DecidableEq

/-- One `sync_history` row as inserted by `_process_config`. -/
structure SyncHistoryRecord where
  config_id : Nat
  status : String
  message : String
  urls_processed : Nat
  urls_failed : Nat
deriving DecidableEq

/-- `next((row['last_content_hash'] for row in tracked_urls if row['url'] == url), None)`:
the first matching row's hash; `None` both when no row matches and when the
matching row's stored hash is NULL. -/
def stored_hash (tracked : List TrackedRow) (url : String) : Option String :=
  match tracked.find? (fun row => row.url == url) with
  | some row => row.last_content_hash
  | none => none

/-- Effects accumulated by the per-URL loop of `_process_config` (lines 85-118).
`row_updates` records each `UPDATE tracked_urls SET last_content_hash, last_sync = NOW()`
as `(url, new_hash)`; `sink_calls` records each `Formula_GenerateSubPage` hand-off
as `(url, content)`. -/
structure PassEffects where
  urls_processed : Nat
  urls_failed : Nat
  urls_changed : Nat
  row_updates : List (String × String)
  sink_calls : List (String × String)
deriving DecidableEq

/-- The condition under which the loop body of `_process_config` treats a result
entry as changed: not an error, and `new_hash != old_hash` (a missing stored
hash is `None` and always differs from the hex digest string). -/
def sync_changed (sha256hex : String → String) (tracked : List TrackedRow)
    (p : String × String) : Bool :=
  !isErrorContent p.2 && !(stored_hash tracked p.1 == some (sha256hex p.2))

/-- The change-detection loop of `_process_config` (lines 85-118) over the result
mapping.  `hashlib.sha256(...).hexdigest()` (`_compute_content_hash`, lines 56-57)
is external and injected as `sha256hex`. -/
def process_results (sha256hex : String → String) (tracked : List TrackedRow)
    (results : List (String × String)) : PassEffects :=
  results.foldl (fun acc p =>
    if isErrorContent p.2 then acc
    else
      let new_hash := sha256hex p.2
      let old_hash := stored_hash tracked p.1
      if !(old_hash == some new_hash) then
        { acc with
          urls_changed := acc.urls_changed + 1
          row_updates := acc.row_updates ++ [(p.1, new_hash)]
          sink_calls := acc.sink_calls ++ [(p.1, p.2)] }
      else acc)
    { urls_processed := results.length
      urls_failed := (results.filter (fun p => isErrorContent p.2)).length
      urls_changed := 0
      row_updates := []
      sink_calls := [] }

/-- Outcome of one `_process_config` attempt: either the batch results reached
the loop, or an unexpected exception was raised somewhere in the `try` block
(psycopg2's connection context manager rolls the transaction back, so the
`try` path's partial writes do not persist). -/
inductive PassOutcome where
  | ok (results : List (String × String))
  | raised (msg : String)

/-- Persistent effects of one `_process_config` call: appended history rows,
tracked-row updates, sink invocations, and whether the config's `last_sync`
was set to `NOW()`. -/
structure ConfigOutcomeEffects where
  history : List SyncHistoryRecord
  row_updates : List (String × String)
  sink_calls : List (String × String)
  last_sync_updated : Bool
deriving DecidableEq

/-- `_process_config` (lines 59-152): on an exception, insert one history row
with status `error`, the exception message and zeroed counts, and leave
everything else (including the config's `last_sync`) untouched; with no
tracked URLs, return early with no effects; otherwise run the loop, append
one `completed` history row and update `last_sync`. -/
def process_config (sha256hex : String → String) (config_id : Nat)
    (tracked : List TrackedRow) (outcome : PassOutcome) : ConfigOutcomeEffects :=
  match outcome with
  | .raised e =>
    { history := [{ config_id := config_id, status := "error", message := e,
                    urls_processed := 0, urls_failed := 0 }]
      row_updates := []
      sink_calls := []
      last_sync_updated := false }
  | .ok results =>
    if tracked.isEmpty then
      { history := [], row_updates := [], sink_calls := [], last_sync_updated := false }
    else
      let eff := process_results sha256hex tracked results
      { history := [{ config_id := config_id, status := "completed",
                      message :=
                        s!"Processed {eff.urls_processed} URLs: {eff.urls_changed} changed, {eff.urls_failed} failed",
                      urls_processed := eff.urls_processed,
                      urls_failed := eff.urls_failed }]
        row_updates := eff.row_updates
        sink_calls := eff.sink_calls
        last_sync_updated := true }

/-- One `UPDATE tracked_urls SET last_content_hash = %s, last_sync = NOW()
WHERE config_id = %s AND url = %s`. -/
def apply_row_update (tracked : List TrackedRow) (upd : String × String) : List TrackedRow :=
  tracked.map (fun row =>
    if row.url == upd.1 then { row with last_content_hash := some upd.2 } else row)

/-- Apply a pass's tracked-row updates in order. -/
def apply_row_updates (tracked : List TrackedRow) (upds : List (String × String)) :
    List TrackedRow :=
  upds.foldl apply_row_update tracked

/-- A `sync_configurations` row as read by `run_sync_cycle`.  Timestamps are
modelled as integer seconds; `sync_interval` is in minutes as in the schema. -/
structure SyncConfig where
  id : Nat
  active : Bool
  sync_interval : Int
  last_sync : Option Int
deriving DecidableEq

/-- The due test of `run_sync_cycle`'s query (lines 160-167):
`active = true AND (last_sync IS NULL OR NOW() - last_sync > (sync_interval || ' minutes')::interval)`. -/
def is_due (now : Int) (c : SyncConfig) : Bool :=
  c.active &&
    (match c.last_sync with
     | none => true
     | some t => decide (now - t > c.sync_interval * 60))

/-- The set of configs one scheduler tick selects for processing. -/
def select_due_configs (now : Int) (configs : List SyncConfig) : List SyncConfig :=
  configs.filter (is_due now)

/-- `UPDATE sync_configurations SET last_sync = NOW()` applied exactly when the
pass reached its successful-completion path. -/
def apply_config_outcome (c : SyncConfig) (now : Int) (eff : ConfigOutcomeEffects) :
    SyncConfig :=
  if eff.last_sync_updated then { c with last_sync := some now } else c

/-! ## src/scraper.py -/

/-- BeautifulSoup capabilities used by `fetch_url_content`, abstracted over the
document: exclusion (`decompose`) as a document transform, CSS selection with
`get_text(strip=True)`, the default code-tag search, the class-regex fallback
search, and `' '.join(soup.stripped_strings)`. -/
structure SoupOracle where
  applyExclude : String → String → String
  selectTexts : String → String → List String
  defaultCodeTexts : String → List String
  classCodeTexts : String → List String
  strippedStrings : String → String

/-- `trafilatura.fetch_url` and `trafilatura.extract` as used by `fetch_url_content`. -/
structure TrafOracle where
  fetch_url : String → Option String
  extract : String → Option String

/-- Outcome of `session.get(url, headers=..., allow_redirects=True, timeout=...)`:
a response, a raised `aiohttp.ClientError`, or any other raised exception. -/
inductive ScrapeFetch where
  | ok (status : Nat) (body : String)
  | clientError (msg : String)
  | raised (msg : String)
deriving DecidableEq

/-- The request headers `fetch_url_content` sends (lines 34-36). -/
def userAgentHeader : List (String × String) :=
  [("User-Agent",
    "Mozilla/5.0 (Windows NT 10.0; Win64; x64) AppleWebKit/537.36 (KHTML, like Gecko) Chrome/91.0.4472.124 Safari/537.36")]

/-- `MIN_CONTENT_LENGTH = 10` of `scraper.py`. -/
def MIN_CONTENT_LENGTH : Nat := 10

/-- Split a character list at the first occurrence of `://`. -/
def breakOnSchemeSep : List Char → Option (List Char × List Char)
  | [] => none
  | c :: rest =>
    if [':', '/', '/'].isPrefixOf (c :: rest) then some ([], (c :: rest).drop 3)
    else
      match breakOnSchemeSep rest with
      | some (pre, post) => some (c :: pre, post)
      | none => none

/-- The `urlparse` validation of `fetch_url_content` (lines 28-29): the URL must
have a non-empty scheme and a non-empty network location. -/
def url_has_scheme_and_netloc (url : String) : Bool :=
  match breakOnSchemeSep url.toList with
  | some (scheme, rest) =>
    !scheme.isEmpty && !(rest.takeWhile (fun c => !(c == '/'))).isEmpty
  | none => false

/-- The 200-status extraction of `fetch_url_content` (lines 59-126): exclusion
first, then custom content/code selection, then the class-regex and
stripped-strings fallbacks, joined and length-checked. -/
def scrape_extract (soup : SoupOracle) (body : String)
    (content_selector code_selector exclude_selector : Option String) : String :=
  let doc :=
    match exclude_selector with
    | some es => if !(es == "") then soup.applyExclude body es else body
    | none => body
  let text_content : List String :=
    match content_selector with
    | some cs => if !(cs == "") then (soup.selectTexts doc cs).filter (fun t => !(t == ""))
                 else []
    | none => []
  let code_elements : List String :=
    match code_selector with
    | some cs => if !(cs == "") then soup.selectTexts doc cs else soup.defaultCodeTexts doc
    | none => soup.defaultCodeTexts doc
  let code_blocks : List String :=
    code_elements.filterMap (fun blockText =>
      if !(blockText == "") then
        let cleaned := pyStrip (blockText.replace "Copy code" "")
        if cleaned.length > 5 then some cleaned else none
      else none)
  let (text_content, code_blocks) :=
    if text_content.isEmpty && code_blocks.isEmpty then
      ((if text_content.isEmpty then [soup.strippedStrings doc] else text_content),
       (soup.classCodeTexts doc).filter (fun t => !(t == "") && t.length > 5))
    else (text_content, code_blocks)
  let joined := pyStrip (String.intercalate "\n\n" (text_content ++ code_blocks))
  if joined.length < MIN_CONTENT_LENGTH then
    s!"Error: Content too short (minimum {MIN_CONTENT_LENGTH} characters required)"
  else joined

/-- `fetch_url_content` (lines 19-133): URL validation, the trafilatura-first
path when no selectors are configured, then the aiohttp fetch (invoked with
the browser `User-Agent` header and a 30-second timeout), status handling
(401/403 distinguished), and selector-based extraction. -/
def fetch_url_content (soup : SoupOracle) (traf : TrafOracle)
    (fetch : List (String × String) → Nat → ScrapeFetch) (url : String)
    (content_selector code_selector exclude_selector : Option String) : String :=
  if !(url_has_scheme_and_netloc url) then "Error: Invalid URL"
  else
    let trafResult : Option String :=
      if !(optStrTruthy content_selector || optStrTruthy code_selector
            || optStrTruthy exclude_selector) then
        match traf.fetch_url url with
        | some downloaded =>
          match traf.extract downloaded with
          | some t => if t == "" then none else some (pyStrip t)
          | none => none
        | none => none
      else none
    match trafResult with
    | some t => t
    | none =>
      match fetch userAgentHeader 30 with
      | .raised msg => s!"Error: An unexpected error occurred - {msg}"
      | .clientError msg => s!"Error: {msg}"
      | .ok status body =>
        if status == 403 || status == 401 then
          s!"Error: Access forbidden (HTTP {status}). Try a publicly accessible URL."
        else if !(status == 200) then s!"Error: HTTP {status}"
        else scrape_extract soup body content_selector code_selector exclude_selector

/-! ## src/coda_pack.py -/

/-- Character class of the validator's basic-selector pattern
`^[a-zA-Z0-9#\.\-_\[\]="\x27~^$*|]+$`. -/
def isBasicSelectorChar (c : Char) : Bool :=
  c.isAlpha || c.isDigit ||
    c == '#' || c == '.' || c == '-' || c == '_' || c == '[' || c == ']' ||
    c == '=' || c == '"' || c == Char.ofNat 39 || c == '~' || c == '^' ||
    c == '$' || c == '*' || c == '|'

/-- Character class `[a-zA-Z0-9#\.\-_]` shared by the descendant and child patterns. -/
def isNameSelectorChar (c : Char) : Bool :=
  c.isAlpha || c.isDigit || c == '#' || c == '.' || c == '-' || c == '_'

/-- In Python regexes, `$` also matches just before one trailing newline. -/
def stripFinalNewline (cs : List Char) : List Char :=
  match cs.getLast? with
  | some c => if c == '\n' then cs.dropLast else cs
  | none => cs

/-- `re.match(r'^[a-zA-Z0-9#\.\-_\[\]="\x27~^$*|]+$', v)`. -/
def matchBasicPattern (v : String) : Bool :=
  let cs := stripFinalNewline v.toList
  !cs.isEmpty && cs.all isBasicSelectorChar

/-- States of the matcher for `^tok(\s+tok)*$` with `tok = [a-zA-Z0-9#\.\-_]+`. -/
inductive DescState where
  | start
  | inTok
  | inSpace

/-- Matcher for the descendant-selector pattern
`^[a-zA-Z0-9#\.\-_]+(?:\s+[a-zA-Z0-9#\.\-_]+)*$`. -/
def matchDescAux : DescState → List Char → Bool
  | .inTok, [] => true
  | _, [] => false
  | st, c :: cs =>
    match st with
    | .start => isNameSelectorChar c && matchDescAux .inTok cs
    | .inTok =>
      if isNameSelectorChar c then matchDescAux .inTok cs
      else if isPySpace c then matchDescAux .inSpace cs
      else false
    | .inSpace =>
      if isPySpace c then matchDescAux .inSpace cs
      else if isNameSelectorChar c then matchDescAux .inTok cs
      else false

/-- `re.match(r'^[a-zA-Z0-9#\.\-_]+(?:\s+[a-zA-Z0-9#\.\-_]+)*$', v)`. -/
def matchDescendantPattern (v : String) : Bool :=
  matchDescAux .start (stripFinalNewline v.toList)

/-- States of the matcher for `^tok(\s*>tok)*$`. -/
inductive ChildState where
  | start
  | inTok
  | spaceGt
  | afterGt

/-- Matcher for the child-selector pattern
`^[a-zA-Z0-9#\.\-_]+(?:\s*>[a-zA-Z0-9#\.\-_]+)*$` (note: no whitespace is
allowed after the `>`). -/
def matchChildAux : ChildState → List Char → Bool
  | .inTok, [] => true
  | _, [] => false
  | st, c :: cs =>
    match st with
    | .start => isNameSelectorChar c && matchChildAux .inTok cs
    | .inTok =>
      if isNameSelectorChar c then matchChildAux .inTok cs
      else if isPySpace c then matchChildAux .spaceGt cs
      else if c == '>' then matchChildAux .afterGt cs
      else false
    | .spaceGt =>
      if isPySpace c then matchChildAux .spaceGt cs
      else if c == '>' then matchChildAux .afterGt cs
      else false
    | .afterGt => isNameSelectorChar c && matchChildAux .inTok cs

/-- `re.match(r'^[a-zA-Z0-9#\.\-_]+(?:\s*>[a-zA-Z0-9#\.\-_]+)*$', v)`. -/
def matchChildPattern (v : String) : Bool :=
  matchChildAux .start (stripFinalNewline v.toList)

/-- `CSSSelector.validate_css_selector` (coda_pack.py lines 19-30): an empty
selector passes; otherwise some allowed pattern must match, else a
`ValueError` is raised (pydantic wraps it in a `ValidationError`, whose
message contains this text). -/
def validate_css_selector (v : String) : Except String String :=
  if v == "" then .ok v
  else if matchBasicPattern v || matchDescendantPattern v || matchChildPattern v then .ok v
  else .error s!"Invalid CSS selector: {v}"

/-- Normalization of `content_selector` at the top of `extract_content`
(lines 55-58): a truthy string becomes a one-element list, `None` and `""`
become the empty list. -/
def normalize_content_selector : Option SelectorArg → List String
  | some (.str s) => if !(s == "") then [s] else []
  | some (.list l) => l
  | none => []

/-- The selector validation at the top of `extract_content`'s per-URL `try`
block (lines 62-67), which runs before `trafilatura.fetch_url`. -/
def validate_selectors (selectors : List String) (code_selector exclude_selector : Option String) :
    Except String Unit :=
  match selectors.findSome? (fun s =>
    match validate_css_selector s with
    | .ok _ => none
    | .error e => some e) with
  | some e => .error e
  | none =>
    match (if optStrTruthy code_selector then validate_css_selector (code_selector.getD "")
           else .ok "") with
    | .error e => .error e
    | .ok _ =>
      match (if optStrTruthy exclude_selector then
               validate_css_selector (exclude_selector.getD "")
             else .ok "") with
      | .error e => .error e
      | .ok _ => .ok ()

/-- External capabilities used by `extract_content`: `trafilatura.fetch_url`,
`trafilatura.extract`, and `soup.select` plus `get_text` (which can raise on
a selector BeautifulSoup rejects). -/
structure ExtractOracle where
  fetch_url : String → Option String
  extract : String → Option String
  select : String → String → Except String (List String)

/-- The per-selector extraction loop of `extract_content` (lines 71-99); each
selector's errors are caught and appended to the content as text. -/
def extract_content_selected (oracle : ExtractOracle) (doc : String) :
    List String → List String
  | [] => []
  | selector :: rest =>
    (match oracle.select doc selector with
     | .ok elems => elems.filter (fun t => !(pyStrip t == ""))
     | .error e => [s!"Error with selector \x27{selector}\x27: {e}"]) ++
      extract_content_selected oracle doc rest

/-- The body of `extract_content`'s per-URL `try` block (lines 61-104):
validate selectors, download, then extract with selectors or fall back to
`trafilatura.extract`.  As in `process_url`, the exclude selector's
`decompose` runs after extraction and cannot change the result, but a
selector error there is caught and appended. -/
def extract_content_one (oracle : ExtractOracle) (selectors : List String)
    (code_selector exclude_selector : Option String) (url : String) : String :=
  let body : Except String String :=
    match validate_selectors selectors code_selector exclude_selector with
    | .error e => .error e
    | .ok _ =>
      match oracle.fetch_url url with
      | some downloaded =>
        if !selectors.isEmpty || optStrTruthy code_selector || optStrTruthy exclude_selector then
          let content := extract_content_selected oracle downloaded selectors
          let content := content ++
            (if optStrTruthy code_selector then
              match oracle.select downloaded (code_selector.getD "") with
              | .ok elems => elems.filter (fun t => !(pyStrip t == ""))
              | .error e => [s!"Error with code selector: {e}"]
            else [])
          let content := content ++
            (if optStrTruthy exclude_selector then
              match oracle.select downloaded (exclude_selector.getD "") with
              | .ok _ => []
              | .error e => [s!"Error with exclude selector: {e}"]
            else [])
          if content.isEmpty then .ok "No content found"
          else .ok (String.intercalate "\n\n" content)
        else
          match oracle.extract downloaded with
          | some t => if t == "" then .ok "No content found" else .ok t
          | none => .ok "No content found"
      | none => .ok "Error: Failed to download content"
  match body with
  | .ok v => v
  | .error e => s!"Error: {e}"

/-- `extract_content` (coda_pack.py lines 50-108): the per-URL results mapping. -/
def extract_content (oracle : ExtractOracle) (urls : List String)
    (content_selector : Option SelectorArg) (code_selector exclude_selector : Option String) :
    List (String × String) :=
  let selectors := normalize_content_selector content_selector
  urls.map (fun url => (url, extract_content_one oracle selectors code_selector exclude_selector url))

/-! ## Auxiliary definitions for stating the claims -/

/-- Python dict read-back `d[k]` on the association-list model (first entry with
the key; construction through `dict_update` keeps keys unique). -/
def dict_get (d : List (String × String)) (k : String) : Option String :=
  match d.find? (fun p => p.1 == k) with
  | some p => some p.2
  | none => none

/-- Comparison predicate for the amended claim C7: whether a single supplied
filter item rejects `text`, mirroring one `elif` arm of the loop (assuming
numeric filter values parse, as the claim does). -/
def filter_fails (text : String) (kv : String × String) : Bool :=
  if kv.1 == "min_length" then
    match pyInt kv.2 with
    | .ok n => decide ((text.length : Int) < n)
    | .error _ => false
  else if kv.1 == "max_length" then
    match pyInt kv.2 with
    | .ok n => decide ((text.length : Int) > n)
    | .error _ => false
  else if kv.1 == "contains" then !pyInStr (pyLower kv.2) (pyLower text)
  else if kv.1 == "excludes" then pyInStr (pyLower kv.2) (pyLower text)
  else false

/-- The rejection message each filter kind reports. -/
def filter_reject_message (kv : String × String) : String :=
  if kv.1 == "min_length" then s!"Content filtered: Too short (min: {kv.2})"
  else if kv.1 == "max_length" then s!"Content filtered: Too long (max: {kv.2})"
  else if kv.1 == "contains" then s!"Content filtered: Does not contain \x27{kv.2}\x27"
  else s!"Content filtered: Contains excluded text \x27{kv.2}\x27"

/-- Comparison definition for the amended claim C7: the first supplied filter
that fails determines the reported rejection. -/
def first_failure_message (text : String) (fs : List (String × String)) : Option String :=
  (fs.find? (filter_fails text)).map filter_reject_message

/-! ## Concrete instances used by witnesses and counterexamples -/

/-- An extractor whose selectors match nothing and whose generic extraction
finds nothing. -/
def emptyExtractor : Extractor :=
  { select := fun _ _ => Except.ok [], trafilatura := fun _ => Except.ok none }

/-- An extractor whose generic extraction returns the fixed text `t`. -/
def textExtractor (t : String) : Extractor :=
  { select := fun _ _ => Except.ok [], trafilatura := fun _ => Except.ok (some t) }

/-- An extractor all of whose operations raise. -/
def failingExtractor (msg : String) : Extractor :=
  { select := fun _ _ => Except.error msg, trafilatura := fun _ => Except.error msg }

/-- A concrete deterministic stand-in for the sha256 hex digest in witnesses. -/
def identityDigest : String → String := fun s => s

/-- Ten distinct URLs. -/
def urls10 : List String :=
  ["u1", "u2", "u3", "u4", "u5", "u6", "u7", "u8", "u9", "u10"]

/-- Filters supplied with `contains` before `min_length` (Python dict insertion
order). -/
def containsFirstArgs : UrlArgs :=
  { content_filters := some [("contains", "x"), ("min_length", "10")] }

/-- A soup oracle finding nothing. -/
def trivialSoup : SoupOracle :=
  { applyExclude := fun body _ => body
    selectTexts := fun _ _ => []
    defaultCodeTexts := fun _ => []
    classCodeTexts := fun _ => []
    strippedStrings := fun _ => "" }

/-- A trafilatura oracle that downloads and extracts nothing. -/
def noTraf : TrafOracle := { fetch_url := fun _ => none, extract := fun _ => none }

/-- A soup oracle whose whole-document stripped text is five characters long. -/
def fiveCharSoup : SoupOracle :=
  { trivialSoup with strippedStrings := fun _ => "abcde" }

/-- A fetch oracle returning the same response for every request. -/
def constScrapeFetch (r : ScrapeFetch) : List (String × String) → Nat → ScrapeFetch :=
  fun _ _ => r

/-- An extract_content oracle that downloads an empty page and selects nothing. -/
def trivialExtractOracle : ExtractOracle :=
  { fetch_url := fun _ => some ""
    extract := fun _ => none
    select := fun _ _ => Except.ok [] }

/-- An extract_content oracle whose selection raises. -/
def failingExtractOracle (msg : String) : ExtractOracle :=
  { fetch_url := fun _ => some ""
    extract := fun _ => none
    select := fun _ _ => Except.error msg }

/-! ## Lemmas about chunking -/

theorem chunksOfAux_flatten {α : Type _} (n : Nat) (hn : n ≠ 0) :
    ∀ (fuel : Nat) (l : List α), l.length ≤ fuel → (chunksOfAux n fuel l).flatten = l := by
  intro fuel
  induction fuel with
  | zero =>
    intro l hl
    have : l = [] := List.length_eq_zero.mp (Nat.le_zero.mp hl)
    subst this
    rfl
  | succ fuel ih =>
    intro l hl
    match l with
    | [] => rfl
    | x :: xs =>
      simp only [chunksOfAux, List.flatten_cons]
      rw [ih]
      · exact List.take_append_drop n (x :: xs)
      · simp only [List.length_drop, List.length_cons]
        simp only [List.length_cons] at hl
        omega

theorem chunksOfAux_mem_length {α : Type _} (n : Nat) :
    ∀ (fuel : Nat) (l : List α) (c : List α), c ∈ chunksOfAux n fuel l → c.length ≤ n := by
  intro fuel
  induction fuel with
  | zero =>
    intro l c hc
    simp [chunksOfAux] at hc
  | succ fuel ih =>
    intro l c hc
    match l with
    | [] => simp [chunksOfAux] at hc
    | x :: xs =>
      simp only [chunksOfAux, List.mem_cons] at hc
      rcases hc with h | h
      · subst h
        simp only [List.length_take]
        omega
      · exact ih _ _ h

theorem chunksOf_flatten {α : Type _} (n : Nat) (hn : 0 < n) (l : List α) :
    (chunksOf n l).flatten = l := by
  unfold chunksOf
  rw [if_neg (by omega)]
  exact chunksOfAux_flatten n (by omega) l.length l (Nat.le_refl _)

theorem chunksOf_mem_length {α : Type _} (n : Nat) (l : List α) (c : List α)
    (hc : c ∈ chunksOf n l) : c.length ≤ n := by
  unfold chunksOf at hc
  split at hc
  · simp at hc
  · exact chunksOfAux_mem_length n l.length l c hc

/-! ## Lemmas about the dict model -/

theorem keys_dict_update_pos (d : List (String × String)) (kv : String × String)
    (h : d.any (fun p => p.1 == kv.1) = true) :
    (dict_update d kv).map Prod.fst = d.map Prod.fst := by
  unfold dict_update
  rw [if_pos h, List.map_map]
  apply List.map_congr_left
  intro p _
  by_cases hp : p.1 = kv.1
  · simp [hp]
  · simp [hp]

theorem keys_dict_update_neg (d : List (String × String)) (kv : String × String)
    (h : d.any (fun p => p.1 == kv.1) = false) :
    (dict_update d kv).map Prod.fst = d.map Prod.fst ++ [kv.1] := by
  unfold dict_update
  rw [if_neg (by simp [h])]
  simp

theorem not_mem_keys_of_any_false (d : List (String × String)) (kv : String × String)
    (h : d.any (fun p => p.1 == kv.1) = false) : kv.1 ∉ d.map Prod.fst := by
  intro hmem
  rcases List.mem_map.mp hmem with ⟨p, hp, hfst⟩
  have h2 : d.any (fun p => p.1 == kv.1) = true :=
    List.any_eq_true.mpr ⟨p, hp, by simp [hfst]⟩
  rw [h] at h2
  exact Bool.false_ne_true h2

theorem mem_keys_dict_update (d : List (String × String)) (kv : String × String) (k : String) :
    k ∈ (dict_update d kv).map Prod.fst ↔ k ∈ d.map Prod.fst ∨ k = kv.1 := by
  cases h : d.any (fun p => p.1 == kv.1) with
  | true =>
    rw [keys_dict_update_pos d kv h]
    constructor
    · exact fun hk => Or.inl hk
    · rintro (hk | hk)
      · exact hk
      · rcases List.any_eq_true.mp h with ⟨p, hp, hfst⟩
        have hpk : p.1 = kv.1 := by simpa using hfst
        rw [hk, ← hpk]
        exact List.mem_map_of_mem Prod.fst hp
  | false =>
    rw [keys_dict_update_neg d kv h]
    simp

theorem nodup_keys_dict_update (d : List (String × String)) (kv : String × String)
    (hd : (d.map Prod.fst).Nodup) : ((dict_update d kv).map Prod.fst).Nodup := by
  cases h : d.any (fun p => p.1 == kv.1) with
  | true => rw [keys_dict_update_pos d kv h]; exact hd
  | false =>
    rw [keys_dict_update_neg d kv h]
    rw [List.nodup_append]
    refine ⟨hd, List.nodup_singleton _, ?_⟩
    intro a ha hb
    have hae : a = kv.1 := by simpa using hb
    subst hae
    exact not_mem_keys_of_any_false d kv h ha

theorem mem_dict_update (d : List (String × String)) (kv p : String × String)
    (hp : p ∈ dict_update d kv) : p ∈ d ∨ p = kv := by
  unfold dict_update at hp
  split at hp
  · rcases List.mem_map.mp hp with ⟨q, hq, hqe⟩
    by_cases hc : q.1 = kv.1
    · right
      simp [hc] at hqe
      exact hqe.symm
    · left
      simp [hc] at hqe
      exact hqe ▸ hq
  · rcases List.mem_append.mp hp with h | h
    · exact Or.inl h
    · exact Or.inr (by simpa using h)

theorem mem_keys_foldl_dict_update :
    ∀ (pairs : List (String × String)) (d : List (String × String)) (k : String),
      k ∈ (pairs.foldl dict_update d).map Prod.fst ↔
        k ∈ d.map Prod.fst ∨ k ∈ pairs.map Prod.fst := by
  intro pairs
  induction pairs with
  | nil => simp
  | cons q rest ih =>
    intro d k
    simp only [List.foldl_cons, List.map_cons, List.mem_cons]
    rw [ih, mem_keys_dict_update]
    tauto

theorem nodup_keys_foldl_dict_update :
    ∀ (pairs : List (String × String)) (d : List (String × String)),
      (d.map Prod.fst).Nodup → ((pairs.foldl dict_update d).map Prod.fst).Nodup := by
  intro pairs
  induction pairs with
  | nil => exact fun d hd => hd
  | cons q rest ih =>
    intro d hd
    exact ih _ (nodup_keys_dict_update d q hd)

theorem mem_foldl_dict_update :
    ∀ (pairs : List (String × String)) (d : List (String × String)) (p : String × String),
      p ∈ pairs.foldl dict_update d → p ∈ d ∨ p ∈ pairs := by
  intro pairs
  induction pairs with
  | nil => exact fun d p hp => Or.inl hp
  | cons q rest ih =>
    intro d p hp
    rcases ih _ p hp with h | h
    · rcases mem_dict_update d q p h with h2 | h2
      · exact Or.inl h2
      · exact Or.inr (by simp [h2])
    · exact Or.inr (List.mem_cons_of_mem q h)

theorem dict_get_cons_eq (q : String × String) (rest : List (String × String)) (k : String)
    (hq : q.1 = k) : dict_get (q :: rest) k = some q.2 := by
  unfold dict_get
  rw [List.find?_cons_of_pos]
  simp [hq]

theorem dict_get_cons_ne (q : String × String) (rest : List (String × String)) (k : String)
    (hq : ¬(q.1 = k)) : dict_get (q :: rest) k = dict_get rest k := by
  unfold dict_get
  rw [List.find?_cons_of_neg]
  simp [hq]

theorem dict_get_of_shape (f : String → String) :
    ∀ (d : List (String × String)), (∀ p ∈ d, p.2 = f p.1) →
      ∀ k ∈ d.map Prod.fst, dict_get d k = some (f k) := by
  intro d
  induction d with
  | nil => simp
  | cons q rest ih =>
    intro hshape k hk
    rw [List.map_cons, List.mem_cons] at hk
    by_cases hq : q.1 = k
    · rw [dict_get_cons_eq q rest k hq, hshape q (List.mem_cons_self q rest), hq]
    · have hk2 : k ∈ rest.map Prod.fst := by
        rcases hk with h | h
        · exact absurd h.symm hq
        · exact h
      rw [dict_get_cons_ne q rest k hq]
      exact ih (fun p hp => hshape p (List.mem_cons_of_mem q hp)) k hk2

/-! ## Lemmas about the batch pipeline folds -/

theorem process_batch_fold_snd (ext : Extractor) (fo : String → FetchOutcome) (a : UrlArgs) :
    ∀ (urls : List String) (pr : Option BatchProgress) (d : List (String × String)),
      (urls.foldl (fun acc url =>
        let r := process_url ext acc.1 url (fo url) a
        (r.1, dict_update acc.2 r.2)) (pr, d)).2 =
      (urls.map (fun u => (u, url_value ext (fo u) a))).foldl dict_update d := by
  intro urls
  induction urls with
  | nil => intro pr d; rfl
  | cons u rest ih =>
    intro pr d
    simp only [List.foldl_cons, List.map_cons, process_url]
    exact ih _ _

theorem process_batch_fold_fst (ext : Extractor) (fo : String → FetchOutcome) (a : UrlArgs) :
    ∀ (urls : List String) (p : BatchProgress) (d : List (String × String)),
      (urls.foldl (fun acc url =>
        let r := process_url ext acc.1 url (fo url) a
        (r.1, dict_update acc.2 r.2)) (some p, d)).1 =
      some { p with processed_urls := p.processed_urls + urls.length } := by
  intro urls
  induction urls with
  | nil =>
    intro p d
    simp
  | cons u rest ih =>
    intro p d
    rw [List.foldl_cons]
    exact (ih { p with processed_urls := p.processed_urls + 1 }
        (dict_update d (u, url_value ext (fo u) a))).trans (by
      simp only [Option.some.injEq, BatchProgress.mk.injEq, List.length_cons,
        eq_self_iff_true, true_and, and_true]
      omega)

theorem process_batch_fst (ext : Extractor) (fo : String → FetchOutcome) (a : UrlArgs)
    (p : BatchProgress) (urls : List String) :
    (process_batch ext fo (some p) urls a).1 =
      some { p with processed_urls := p.processed_urls + urls.length,
                    current_batch := p.current_batch + 1 } := by
  simp only [process_batch]
  rw [process_batch_fold_fst]
  rfl

theorem process_batch_snd (ext : Extractor) (fo : String → FetchOutcome) (a : UrlArgs)
    (pr : Option BatchProgress) (urls : List String) :
    (process_batch ext fo pr urls a).2 =
      (urls.map (fun u => (u, url_value ext (fo u) a))).foldl dict_update [] := by
  simp only [process_batch]
  rw [process_batch_fold_snd]

theorem outer_fold_fst (ext : Extractor) (fo : String → FetchOutcome) (a : UrlArgs) :
    ∀ (chunks : List (List String)) (p : BatchProgress) (d : List (String × String)),
      ((chunks.foldl (fun acc batch =>
          let r := process_batch ext fo acc.1 batch a
          (r.1, r.2.foldl dict_update acc.2)) (some p, d)).1) =
        some { p with
          processed_urls := p.processed_urls + (chunks.map List.length).sum,
          current_batch := p.current_batch + chunks.length } := by
  intro chunks
  induction chunks with
  | nil =>
    intro p d
    simp
  | cons batch rest ih =>
    intro p d
    rw [List.foldl_cons]
    simp only []
    rw [process_batch_fst]
    exact (ih _ _).trans (by
      simp only [Option.some.injEq, BatchProgress.mk.injEq, List.map_cons, List.sum_cons,
        List.length_cons, eq_self_iff_true, true_and, and_true]
      omega)

theorem outer_fold_snd (ext : Extractor) (fo : String → FetchOutcome) (a : UrlArgs) :
    ∀ (chunks : List (List String)) (pr : Option BatchProgress) (d : List (String × String)),
      ((chunks.foldl (fun acc batch =>
          let r := process_batch ext fo acc.1 batch a
          (r.1, r.2.foldl dict_update acc.2)) (pr, d)).2) =
        chunks.foldl (fun d batch =>
          ((batch.map (fun u => (u, url_value ext (fo u) a))).foldl dict_update []).foldl
            dict_update d) d := by
  intro chunks
  induction chunks with
  | nil => intro pr d; rfl
  | cons batch rest ih =>
    intro pr d
    simp only [List.foldl_cons]
    rw [← process_batch_snd ext fo a pr batch]
    exact ih _ _

theorem chunkfold_shape (f : String → String) :
    ∀ (chunks : List (List String)) (d : List (String × String)),
      (∀ p ∈ d, p.2 = f p.1) →
      ∀ p ∈ chunks.foldl (fun d batch =>
          ((batch.map (fun u => (u, f u))).foldl dict_update []).foldl dict_update d) d,
        p.2 = f p.1 := by
  intro chunks
  induction chunks with
  | nil => exact fun d hd => hd
  | cons batch rest ih =>
    intro d hd
    rw [List.foldl_cons]
    apply ih
    intro p hp
    rcases mem_foldl_dict_update _ _ _ hp with h | h
    · exact hd p h
    · rcases mem_foldl_dict_update _ _ _ h with h2 | h2
      · simp at h2
      · rcases List.mem_map.mp h2 with ⟨u, _, hu⟩
        rw [← hu]

theorem chunkfold_keys (f : String → String) :
    ∀ (chunks : List (List String)) (d : List (String × String)) (k : String),
      k ∈ (chunks.foldl (fun d batch =>
          ((batch.map (fun u => (u, f u))).foldl dict_update []).foldl dict_update d) d).map
            Prod.fst ↔
        k ∈ d.map Prod.fst ∨ k ∈ chunks.flatten := by
  intro chunks
  induction chunks with
  | nil => simp
  | cons batch rest ih =>
    intro d k
    rw [List.foldl_cons, ih, mem_keys_foldl_dict_update, List.flatten_cons]
    have hbk : k ∈ ((batch.map (fun u => (u, f u))).foldl dict_update []).map Prod.fst ↔
        k ∈ batch := by
      rw [mem_keys_foldl_dict_update]
      simp
    rw [hbk, List.mem_append]
    tauto

theorem chunkfold_nodup (f : String → String) :
    ∀ (chunks : List (List String)) (d : List (String × String)),
      (d.map Prod.fst).Nodup →
      ((chunks.foldl (fun d batch =>
          ((batch.map (fun u => (u, f u))).foldl dict_update []).foldl dict_update d) d).map
            Prod.fst).Nodup := by
  intro chunks
  induction chunks with
  | nil => exact fun d hd => hd
  | cons batch rest ih =>
    intro d hd
    rw [List.foldl_cons]
    exact ih _ (nodup_keys_foldl_dict_update _ _ hd)

/-- Claim C3: for every input URL list and any oracle behavior, `process_urls`
finishes with `processed_urls` equal to the input count — the `finally`
cleanup increments the counter exactly once per URL on every outcome — and
the returned mapping's keys are exactly the input URLs, each appearing once. -/
theorem C3_progress_and_result_keys (bp : BatchProcessor) (ext : Extractor)
    (fetchOf : String → FetchOutcome) (urls : List String) (a : UrlArgs)
    (hbs : 0 < bp.batch_size) :
    (process_urls bp ext fetchOf urls a).1 =
      some { total_urls := urls.length
             processed_urls := urls.length
             failed_urls := 0
             current_batch := (chunksOf bp.batch_size urls).length
             total_batches := total_batches_calc urls.length bp.batch_size }
    ∧ ((process_urls bp ext fetchOf urls a).2.map Prod.fst).Nodup
    ∧ (∀ u, u ∈ (process_urls bp ext fetchOf urls a).2.map Prod.fst ↔ u ∈ urls)
    ∧ (∀ progress url fetch,
        (process_url ext progress url fetch a).1 = increment_processed progress) := by
  have hsum : ((chunksOf bp.batch_size urls).map List.length).sum = urls.length := by
    rw [← List.length_flatten, chunksOf_flatten bp.batch_size hbs urls]
  refine ⟨?_, ?_, ?_, fun progress url fetch => rfl⟩
  · simp only [process_urls]
    rw [outer_fold_fst]
    rw [hsum]
    simp
  · simp only [process_urls]
    rw [outer_fold_snd]
    exact chunkfold_nodup _ _ _ (by simp)
  · intro u
    simp only [process_urls]
    rw [outer_fold_snd]
    rw [chunkfold_keys (fun u => url_value ext (fetchOf u) a) _ _ u]
    rw [chunksOf_flatten bp.batch_size hbs urls]
    simp

/-- Witness for C3 at a concrete input: default configuration, two URLs, an
oracle that raises on every fetch. -/
theorem C3_progress_and_result_keys_witness :
    0 < (({} : BatchProcessor)).batch_size
    ∧ ((process_urls {} emptyExtractor (fun _ => .exn "boom") ["a", "b"] {}).1 =
        some { total_urls := 2, processed_urls := 2, failed_urls := 0,
               current_batch := (chunksOf (10 : Nat) ["a", "b"]).length,
               total_batches := total_batches_calc 2 10 }
      ∧ ((process_urls {} emptyExtractor (fun _ => .exn "boom") ["a", "b"] {}).2.map
          Prod.fst).Nodup
      ∧ (∀ u, u ∈ (process_urls {} emptyExtractor (fun _ => .exn "boom") ["a", "b"] {}).2.map
            Prod.fst ↔ u ∈ ["a", "b"])
      ∧ (∀ progress url fetch,
          (process_url emptyExtractor progress url fetch {}).1 = increment_processed progress)) :=
  ⟨by decide,
   C3_progress_and_result_keys {} emptyExtractor (fun _ => .exn "boom") ["a", "b"] {} (by decide)⟩

/-! ## Claims about the scheduler -/

/-- Claim C2: a scheduler tick selects a configuration as due iff it is active
and (`last_sync` is null, or `now - last_sync` exceeds `sync_interval`
minutes); in particular with interval 30, a `last_sync` 31 minutes old is
due, 29 minutes old is not, and null `last_sync` is always due. -/
theorem C2_due_check :
    (∀ (now : Int) (configs : List SyncConfig) (c : SyncConfig),
      c ∈ select_due_configs now configs ↔ c ∈ configs ∧ is_due now c = true)
    ∧ (∀ (now : Int) (c : SyncConfig),
      is_due now c = true ↔
        c.active = true ∧
          (c.last_sync = none ∨ ∃ t, c.last_sync = some t ∧ now - t > c.sync_interval * 60))
    ∧ (∀ (now : Int) (id : Nat),
      is_due now { id := id, active := true, sync_interval := 30,
                   last_sync := some (now - 31 * 60) } = true)
    ∧ (∀ (now : Int) (id : Nat),
      is_due now { id := id, active := true, sync_interval := 30,
                   last_sync := some (now - 29 * 60) } = false)
    ∧ (∀ (now : Int) (id : Nat) (interval : Int),
      is_due now { id := id, active := true, sync_interval := interval,
                   last_sync := none } = true) := by
  refine ⟨?_, ?_, ?_, ?_, ?_⟩
  · intro now configs c
    unfold select_due_configs
    exact List.mem_filter
  · intro now c
    unfold is_due
    cases hls : c.last_sync with
    | none => simp
    | some t =>
      simp only [Bool.and_eq_true, decide_eq_true_eq]
      constructor
      · rintro ⟨ha, hc⟩
        exact ⟨ha, Or.inr ⟨t, rfl, hc⟩⟩
      · rintro ⟨ha, hn | ⟨t2, ht2, hc⟩⟩
        · exact absurd hn (by simp)
        · cases Option.some.inj ht2
          exact ⟨ha, hc⟩
  · intro now id
    simp only [is_due]
    norm_num
  · intro now id
    simp only [is_due]
    norm_num
  · intro now id interval
    rfl

/-- Claim C9: an unexpected exception during a pass appends exactly one history
record with status `error`, the exception message and zeroed counts, leaves
the configuration (in particular `last_sync`) unchanged, and the
configuration stays due on any later tick. -/
theorem C9_error_path (sha256hex : String → String) (config_id : Nat)
    (tracked : List TrackedRow) (e : String) (c : SyncConfig) (now now2 : Int)
    (hdue : is_due now c = true) (hle : now ≤ now2) :
    process_config sha256hex config_id tracked (.raised e) =
      { history := [{ config_id := config_id, status := "error", message := e,
                      urls_processed := 0, urls_failed := 0 }]
        row_updates := []
        sink_calls := []
        last_sync_updated := false }
    ∧ apply_config_outcome c now2 (process_config sha256hex config_id tracked (.raised e)) = c
    ∧ is_due now2 c = true := by
  refine ⟨rfl, rfl, ?_⟩
  unfold is_due at hdue ⊢
  cases hls : c.last_sync with
  | none => simp_all
  | some t =>
    rw [hls] at hdue
    simp only [Bool.and_eq_true, decide_eq_true_eq] at hdue ⊢
    exact ⟨hdue.1, by omega⟩

/-- Witness for C9: a concrete config that was due 31 minutes after its last
sync remains due 60 seconds later when the pass raises. -/
theorem C9_error_path_witness :
    (is_due 1860 { id := 1, active := true, sync_interval := 30, last_sync := some 0 } = true
      ∧ (1860 : Int) ≤ 1920)
    ∧ (process_config identityDigest 1 [] (.raised "db down") =
        { history := [{ config_id := 1, status := "error", message := "db down",
                        urls_processed := 0, urls_failed := 0 }]
          row_updates := []
          sink_calls := []
          last_sync_updated := false }
      ∧ apply_config_outcome
          { id := 1, active := true, sync_interval := 30, last_sync := some 0 } 1920
          (process_config identityDigest 1 [] (.raised "db down")) =
          { id := 1, active := true, sync_interval := 30, last_sync := some 0 }
      ∧ is_due 1920 { id := 1, active := true, sync_interval := 30, last_sync := some 0 } = true) :=
  ⟨⟨by decide, by decide⟩,
   C9_error_path identityDigest 1 [] "db down"
     { id := 1, active := true, sync_interval := 30, last_sync := some 0 } 1860 1920
     (by decide) (by decide)⟩

/-! ## Claims about concurrency and the per-URL steps -/

/-- Claim C5 counterexample: with the default configuration (batch_size 10,
max_concurrent 5) and ten URLs, `process_batch` starts all ten fetch tasks of
the single chunk together via `asyncio.gather` — an in-flight fan-out of 10,
exceeding the configured bound 5, which is never consulted. -/
theorem C5_counterexample :
    (10 : Nat) ∈ batch_task_fanout { batch_size := 10, max_concurrent := 5 } urls10
    ∧ ¬((10 : Nat) ≤
        ({ batch_size := 10, max_concurrent := 5 } : BatchProcessor).max_concurrent) := by
  constructor
  · have h : batch_task_fanout { batch_size := 10, max_concurrent := 5 } urls10 = [10] := rfl
    rw [h]
    exact List.mem_singleton.mpr rfl
  · decide

/-- Amended claim C5: chunks of `batch_size` URLs are processed one at a time
with chunk order preserved (the chunks flatten back to the input), but within
a chunk every URL's fetch+extract is dispatched at once — the in-flight
fan-out equals the chunk length, bounded only by `batch_size` — and the
configured `max_concurrent` is never read: the pipeline's behavior is
identical for any two values of it. -/
theorem C5_chunking_without_concurrency_bound (bp bp2 : BatchProcessor) (ext : Extractor)
    (fetchOf : String → FetchOutcome) (urls : List String) (a : UrlArgs)
    (hbs : 0 < bp.batch_size) (hsame : bp.batch_size = bp2.batch_size) :
    (chunksOf bp.batch_size urls).flatten = urls
    ∧ batch_task_fanout bp urls = (chunksOf bp.batch_size urls).map List.length
    ∧ (∀ w ∈ batch_task_fanout bp urls, w ≤ bp.batch_size)
    ∧ process_urls bp ext fetchOf urls a = process_urls bp2 ext fetchOf urls a := by
  refine ⟨chunksOf_flatten _ hbs _, rfl, ?_, ?_⟩
  · intro w hw
    rcases List.mem_map.mp hw with ⟨c, hc, hlen⟩
    exact hlen ▸ chunksOf_mem_length _ _ _ hc
  · simp only [process_urls, hsame]

/-- Witness for the amended C5: batch size 10 against two processors whose
`max_concurrent` differ (5 versus 99). -/
theorem C5_chunking_without_concurrency_bound_witness :
    (0 < ({ batch_size := 10, max_concurrent := 5 } : BatchProcessor).batch_size
      ∧ ({ batch_size := 10, max_concurrent := 5 } : BatchProcessor).batch_size =
          ({ batch_size := 10, max_concurrent := 99 } : BatchProcessor).batch_size)
    ∧ ((chunksOf (10 : Nat) urls10).flatten = urls10
      ∧ batch_task_fanout { batch_size := 10, max_concurrent := 5 } urls10 =
          (chunksOf (10 : Nat) urls10).map List.length
      ∧ (∀ w ∈ batch_task_fanout { batch_size := 10, max_concurrent := 5 } urls10, w ≤ 10)
      ∧ process_urls { batch_size := 10, max_concurrent := 5 } emptyExtractor
          (fun _ => .exn "boom") urls10 {} =
        process_urls { batch_size := 10, max_concurrent := 99 } emptyExtractor
          (fun _ => .exn "boom") urls10 {}) :=
  ⟨⟨by decide, by decide⟩,
   C5_chunking_without_concurrency_bound { batch_size := 10, max_concurrent := 5 }
     { batch_size := 10, max_concurrent := 99 } emptyExtractor (fun _ => .exn "boom")
     urls10 {} (by decide) (by decide)⟩

/-- Claim C4 counterexample: the batch pipeline's per-URL handler contradicts
the claimed steps — at HTTP 200 with empty extraction the result is the
plain, non-error string "No content found" where step (e) requires
Error{NoContent}, and HTTP 403 yields the generic "Error: HTTP 403" rather
than a distinguished forbidden error. -/
theorem C4_counterexample :
    url_value emptyExtractor (.ok 200 "<html></html>") {} = "No content found"
    ∧ isErrorContent (url_value emptyExtractor (.ok 200 "<html></html>") {}) = false
    ∧ url_value emptyExtractor (.ok 403 "") {} = "Error: HTTP 403" := by
  refine ⟨rfl, by decide, rfl⟩

/-- Amended claim C4: in the batch pipeline (`BatchProcessor.process_url`) the
per-URL result is: any non-200 status — 401 and 403 included — yields the
generic `Error: HTTP code` with no URL validation, explicit timeout, or
distinguished forbidden case; a raised fetch exception yields
`Error: message`; at 200 the extractor runs with the configured selectors
or the generic whole-document fallback, and an extraction that comes up
empty yields the non-error sentinel "No content found".  The claimed steps
(a)-(c) live only in the standalone scraper `fetch_url_content`, which
validates the URL, sends the browser identity header with a 30-second
timeout, distinguishes 401/403, and — instead of step (e) — rejects any
content shorter than 10 characters. -/
theorem C4_actual_per_url_steps :
    (∀ (ext : Extractor) (a : UrlArgs) (url : String) (pr : Option BatchProgress)
       (status : Nat) (html : String), ¬(status = 200) →
      process_url ext pr url (.ok status html) a =
        (increment_processed pr, (url, s!"Error: HTTP {status}")))
    ∧ (∀ (ext : Extractor) (a : UrlArgs) (url : String) (pr : Option BatchProgress)
        (msg : String),
      process_url ext pr url (.exn msg) a =
        (increment_processed pr, (url, s!"Error: {msg}")))
    ∧ (∀ (ext : Extractor) (a : UrlArgs) (url html : String) (pr : Option BatchProgress),
      extract_text_content ext html a.content_selector a.code_selector a.exclude_selector =
        Except.ok "No content found" →
      process_url ext pr url (.ok 200 html) a =
        (increment_processed pr, (url, "No content found")))
    ∧ (∀ (soup : SoupOracle) (traf : TrafOracle)
        (fetch : List (String × String) → Nat → ScrapeFetch) (url : String)
        (cs cos es : Option String), url_has_scheme_and_netloc url = false →
      fetch_url_content soup traf fetch url cs cos es = "Error: Invalid URL")
    ∧ (∀ (soup : SoupOracle) (traf : TrafOracle)
        (fetch : List (String × String) → Nat → ScrapeFetch) (url : String)
        (cs cos es : Option String) (status : Nat) (body : String),
        url_has_scheme_and_netloc url = true → optStrTruthy cs = true →
        fetch userAgentHeader 30 = .ok status body →
      ((status = 401 ∨ status = 403) →
        fetch_url_content soup traf fetch url cs cos es =
          s!"Error: Access forbidden (HTTP {status}). Try a publicly accessible URL.")
      ∧ (¬(status = 200) → ¬(status = 401) → ¬(status = 403) →
        fetch_url_content soup traf fetch url cs cos es = s!"Error: HTTP {status}")
      ∧ (status = 200 →
        fetch_url_content soup traf fetch url cs cos es =
          scrape_extract soup body cs cos es))
    ∧ (∀ (soup : SoupOracle) (traf : TrafOracle)
        (f g : List (String × String) → Nat → ScrapeFetch) (url : String)
        (cs cos es : Option String), f userAgentHeader 30 = g userAgentHeader 30 →
      fetch_url_content soup traf f url cs cos es = fetch_url_content soup traf g url cs cos es)
    ∧ scrape_extract fiveCharSoup "x" none none none =
        s!"Error: Content too short (minimum {MIN_CONTENT_LENGTH} characters required)" := by
  refine ⟨?_, ?_, ?_, ?_, ?_, ?_, ?_⟩
  · intro ext a url pr status html hs
    simp [process_url, url_value, process_url_body, hs]
  · intro ext a url pr msg
    rfl
  · intro ext a url html pr hext
    simp [process_url, url_value, process_url_body, hext]
  · intro soup traf fetch url cs cos es hurl
    simp [fetch_url_content, hurl]
  · intro soup traf fetch url cs cos es status body hurl hsel hfetch
    refine ⟨?_, ?_, ?_⟩
    · rintro (h4 | h4) <;>
        simp [fetch_url_content, hurl, hsel, hfetch, h4]
    · intro h200 h401 h403
      simp [fetch_url_content, hurl, hsel, hfetch, h200, h401, h403]
    · intro h200
      simp [fetch_url_content, hurl, hsel, hfetch, h200]
  · intro soup traf f g url cs cos es hfg
    simp only [fetch_url_content, hfg]
  · rfl

/-- Witness for the amended C4 at concrete inputs: a 401 response through the
batch path, a raised fetch, an empty extraction, an invalid URL, a 403 /
500 / 200 response through the scraper, two fetch oracles agreeing at the
header-and-timeout the scraper uses, and the five-character content the
scraper rejects. -/
theorem C4_actual_per_url_steps_witness :
    (¬((401 : Nat) = 200)
      ∧ process_url emptyExtractor none "u" (.ok 401 "") {} =
          (increment_processed none, ("u", "Error: HTTP 401")))
    ∧ process_url emptyExtractor none "u" (.exn "boom") {} =
        (increment_processed none, ("u", "Error: boom"))
    ∧ (extract_text_content emptyExtractor "" (({} : UrlArgs)).content_selector
          (({} : UrlArgs)).code_selector (({} : UrlArgs)).exclude_selector =
          Except.ok "No content found"
      ∧ process_url emptyExtractor none "u" (.ok 200 "") {} =
          (increment_processed none, ("u", "No content found")))
    ∧ (url_has_scheme_and_netloc "nourl" = false
      ∧ fetch_url_content trivialSoup noTraf (constScrapeFetch (.ok 200 "")) "nourl"
          (some "p") none none = "Error: Invalid URL")
    ∧ (url_has_scheme_and_netloc "https://x" = true
      ∧ optStrTruthy (some "p") = true
      ∧ constScrapeFetch (.ok 403 "") userAgentHeader 30 = .ok 403 ""
      ∧ (((403 : Nat) = 401 ∨ (403 : Nat) = 403) →
          fetch_url_content trivialSoup noTraf (constScrapeFetch (.ok 403 "")) "https://x"
            (some "p") none none =
            "Error: Access forbidden (HTTP 403). Try a publicly accessible URL."))
    ∧ fetch_url_content trivialSoup noTraf (constScrapeFetch (.ok 404 "")) "https://x"
        (some "p") none none =
      fetch_url_content trivialSoup noTraf (fun _ _ => .ok 404 "") "https://x"
        (some "p") none none
    ∧ scrape_extract fiveCharSoup "x" none none none =
        "Error: Content too short (minimum 10 characters required)" :=
  ⟨⟨by decide, C4_actual_per_url_steps.1 emptyExtractor {} "u" none 401 "" (by decide)⟩,
   C4_actual_per_url_steps.2.1 emptyExtractor {} "u" none "boom",
   ⟨rfl, C4_actual_per_url_steps.2.2.1 emptyExtractor {} "u" "" none rfl⟩,
   ⟨by decide, C4_actual_per_url_steps.2.2.2.1 trivialSoup noTraf
      (constScrapeFetch (.ok 200 "")) "nourl" (some "p") none none (by decide)⟩,
   ⟨by decide, by decide, rfl,
    fun h => (C4_actual_per_url_steps.2.2.2.2.1 trivialSoup noTraf
      (constScrapeFetch (.ok 403 "")) "https://x" (some "p") none none 403 ""
      (by decide) (by decide) rfl).1 h⟩,
   C4_actual_per_url_steps.2.2.2.2.2.1 trivialSoup noTraf (constScrapeFetch (.ok 404 ""))
     (fun _ _ => .ok 404 "") "https://x" (some "p") none none rfl,
   C4_actual_per_url_steps.2.2.2.2.2.2⟩

/-! ## Claims about content filters -/

/-- Claim C7 counterexample: for text "abcde" (length 5) with the filters
supplied in the order {contains: "x", min_length: "10"} — Python dict
insertion order — the pipeline reports the `contains` rejection, not the
`min_length` rejection the claim requires regardless of supplied order. -/
theorem C7_counterexample :
    url_value (textExtractor "abcde") (.ok 200 "") containsFirstArgs =
      "Content filtered: Does not contain \x27x\x27"
    ∧ ¬(url_value (textExtractor "abcde") (.ok 200 "") containsFirstArgs =
        "Content filtered: Too short (min: 10)") := by
  constructor
  · rfl
  · decide

/-- Amended claim C7: the filter loop evaluates the supplied items in their
insertion order, short-circuiting on the first failing filter and reporting
that filter's rejection (assuming numeric filter values parse); when the
caller supplies them in the order min_length, max_length, contains,
excludes — as the web front end builds the mapping — the fixed-order claim
holds, and for text of length 5 with {min_length: 10, contains: "x"}
supplied in that order the reported rejection is min_length. -/
theorem C7_filters_in_supplied_order (text : String) (fs : List (String × String))
    (hnum : ∀ kv ∈ fs, kv.1 = "min_length" ∨ kv.1 = "max_length" →
      ∃ n : Int, pyInt kv.2 = Except.ok n) :
    apply_content_filters text fs = Except.ok (first_failure_message text fs)
    ∧ apply_content_filters "abcde" [("min_length", "10"), ("contains", "x")] =
        Except.ok (some "Content filtered: Too short (min: 10)") := by
  refine ⟨?_, by rfl⟩
  induction fs with
  | nil => rfl
  | cons kv rest ih =>
    have hrest := ih (fun q hq => hnum q (List.mem_cons_of_mem kv hq))
    obtain ⟨k, v⟩ := kv
    by_cases hk1 : k = "min_length"
    · obtain ⟨n, hn⟩ := hnum (k, v) (List.mem_cons_self _ _) (Or.inl hk1)
      by_cases hlt : (text.length : Int) < n
      · simp [apply_content_filters, first_failure_message, filter_fails,
          filter_reject_message, hk1, hn, hlt]
      · simp [apply_content_filters, first_failure_message, filter_fails,
          filter_reject_message, hk1, hn, hlt] at hrest ⊢
        exact hrest
    · by_cases hk2 : k = "max_length"
      · obtain ⟨n, hn⟩ := hnum (k, v) (List.mem_cons_self _ _) (Or.inr hk2)
        by_cases hgt : (text.length : Int) > n
        · simp [apply_content_filters, first_failure_message, filter_fails,
            filter_reject_message, hk1, hk2, hn, hgt]
        · simp [apply_content_filters, first_failure_message, filter_fails,
            filter_reject_message, hk1, hk2, hn, hgt] at hrest ⊢
          exact hrest
      · by_cases hk3 : k = "contains"
        · by_cases habs : pyInStr (pyLower v) (pyLower text)
          · simp [apply_content_filters, first_failure_message, filter_fails,
              filter_reject_message, hk1, hk2, hk3, habs] at hrest ⊢
            exact hrest
          · simp [apply_content_filters, first_failure_message, filter_fails,
              filter_reject_message, hk1, hk2, hk3, habs]
        · by_cases hk4 : k = "excludes"
          · by_cases hpres : pyInStr (pyLower v) (pyLower text)
            · simp [apply_content_filters, first_failure_message, filter_fails,
                filter_reject_message, hk1, hk2, hk3, hk4, hpres]
            · simp [apply_content_filters, first_failure_message, filter_fails,
                filter_reject_message, hk1, hk2, hk3, hk4, hpres] at hrest ⊢
              exact hrest
          · simp [apply_content_filters, first_failure_message, filter_fails,
              filter_reject_message, hk1, hk2, hk3, hk4] at hrest ⊢
            exact hrest

/-- Witness for the amended C7: the spec's own example supplied in the fixed
order reports the min_length rejection. -/
theorem C7_filters_in_supplied_order_witness :
    (∀ kv ∈ [(("min_length" : String), ("10" : String)), ("contains", "x")],
      kv.1 = "min_length" ∨ kv.1 = "max_length" → ∃ n : Int, pyInt kv.2 = Except.ok n)
    ∧ (apply_content_filters "abcde" [("min_length", "10"), ("contains", "x")] =
        Except.ok (first_failure_message "abcde" [("min_length", "10"), ("contains", "x")])
      ∧ apply_content_filters "abcde" [("min_length", "10"), ("contains", "x")] =
        Except.ok (some "Content filtered: Too short (min: 10)")) :=
  ⟨by
    intro kv hkv hk
    rcases List.mem_cons.mp hkv with h | h
    · exact ⟨10, by rw [h]; rfl⟩
    · rw [List.mem_singleton.mp h] at hk
      rcases hk with h3 | h3 <;> simp at h3,
   C7_filters_in_supplied_order "abcde" [("min_length", "10"), ("contains", "x")] (by
    intro kv hkv hk
    rcases List.mem_cons.mp hkv with h | h
    · exact ⟨10, by rw [h]; rfl⟩
    · rw [List.mem_singleton.mp h] at hk
      rcases hk with h3 | h3 <;> simp at h3)⟩

/-- Claim C8: a single supplied filter item fails exactly as specified —
min_length iff `len(text) < value`, max_length iff `len(text) > value`,
contains iff the value is case-insensitively absent, excludes iff it is
case-insensitively present — and any other filter kind is skipped. -/
theorem C8_filter_kind_semantics (text v : String) :
    (∀ n : Int, pyInt v = Except.ok n →
      apply_content_filters text [("min_length", v)] =
        Except.ok (if (text.length : Int) < n then
          some s!"Content filtered: Too short (min: {v})" else none))
    ∧ (∀ n : Int, pyInt v = Except.ok n →
      apply_content_filters text [("max_length", v)] =
        Except.ok (if (text.length : Int) > n then
          some s!"Content filtered: Too long (max: {v})" else none))
    ∧ apply_content_filters text [("contains", v)] =
        Except.ok (if !pyInStr (pyLower v) (pyLower text) then
          some s!"Content filtered: Does not contain \x27{v}\x27" else none)
    ∧ apply_content_filters text [("excludes", v)] =
        Except.ok (if pyInStr (pyLower v) (pyLower text) then
          some s!"Content filtered: Contains excluded text \x27{v}\x27" else none)
    ∧ (∀ (k : String) (rest : List (String × String)),
        ¬(k = "min_length") → ¬(k = "max_length") → ¬(k = "contains") → ¬(k = "excludes") →
      apply_content_filters text ((k, v) :: rest) = apply_content_filters text rest) := by
  refine ⟨?_, ?_, ?_, ?_, ?_⟩
  · intro n hn
    by_cases hlt : (text.length : Int) < n <;>
      simp [apply_content_filters, hn, hlt]
  · intro n hn
    by_cases hgt : (text.length : Int) > n <;>
      simp [apply_content_filters, hn, hgt]
  · by_cases habs : pyInStr (pyLower v) (pyLower text) <;>
      simp [apply_content_filters, habs]
  · by_cases hpres : pyInStr (pyLower v) (pyLower text) <;>
      simp [apply_content_filters, hpres]
  · intro k rest h1 h2 h3 h4
    simp [apply_content_filters, h1, h2, h3, h4]

/-- Witness for C8: value "3" against the text "AbCdE" (length 5), plus an
unknown filter kind that is skipped. -/
theorem C8_filter_kind_semantics_witness :
    (pyInt "3" = Except.ok 3
      ∧ apply_content_filters "AbCdE" [("min_length", "3")] =
          Except.ok (if ((5 : Int) < 3) then
            some "Content filtered: Too short (min: 3)" else none))
    ∧ (pyInt "3" = Except.ok 3
      ∧ apply_content_filters "AbCdE" [("max_length", "3")] =
          Except.ok (if ((5 : Int) > 3) then
            some "Content filtered: Too long (max: 3)" else none))
    ∧ apply_content_filters "AbCdE" [("contains", "BCD")] =
        Except.ok (if !pyInStr (pyLower "BCD") (pyLower "AbCdE") then
          some "Content filtered: Does not contain \x27BCD\x27" else none)
    ∧ apply_content_filters "AbCdE" [("excludes", "BCD")] =
        Except.ok (if pyInStr (pyLower "BCD") (pyLower "AbCdE") then
          some "Content filtered: Contains excluded text \x27BCD\x27" else none)
    ∧ (¬(("word_count" : String) = "min_length")
      ∧ apply_content_filters "AbCdE" [("word_count", "3")] =
          apply_content_filters "AbCdE" []) :=
  ⟨⟨rfl, (C8_filter_kind_semantics "AbCdE" "3").1 3 rfl⟩,
   ⟨rfl, (C8_filter_kind_semantics "AbCdE" "3").2.1 3 rfl⟩,
   (C8_filter_kind_semantics "AbCdE" "BCD").2.2.1,
   (C8_filter_kind_semantics "AbCdE" "BCD").2.2.2.1,
   ⟨by decide, (C8_filter_kind_semantics "AbCdE" "3").2.2.2.2 "word_count" []
      (by decide) (by decide) (by decide) (by decide)⟩⟩

/-! ## The "No content found" sentinel -/

theorem collect_selected_empty (ext : Extractor) (html : String)
    (hsel : ∀ s, ext.select html s = Except.ok []) :
    ∀ selectors, collect_selected ext html selectors = Except.ok [] := by
  intro selectors
  induction selectors with
  | nil => rfl
  | cons s rest ih => simp [collect_selected, hsel s, ih]

theorem collect_code_empty (ext : Extractor) (html : String) (cos : Option String)
    (hsel : ∀ s, ext.select html s = Except.ok []) :
    collect_code ext html cos = Except.ok [] := by
  cases cos with
  | none => rfl
  | some c =>
    by_cases hc : c = ""
    · simp [collect_code, hc]
    · simp [collect_code, hc, hsel c]

theorem check_exclude_ok (ext : Extractor) (html : String) (es : Option String)
    (hsel : ∀ s, ext.select html s = Except.ok []) :
    check_exclude ext html es = Except.ok () := by
  cases es with
  | none => rfl
  | some e =>
    by_cases he : e = ""
    · simp [check_exclude, he]
    · simp [check_exclude, he, hsel e]

/-- When selection matches nothing and generic extraction finds nothing, the
extraction step of `process_url` produces the sentinel, whichever selectors
are configured. -/
theorem extract_text_content_empty (ext : Extractor) (html : String)
    (cs : Option SelectorArg) (cos es : Option String)
    (hsel : ∀ s, ext.select html s = Except.ok [])
    (htraf : ext.trafilatura html = Except.ok none) :
    extract_text_content ext html cs cos es = Except.ok "No content found" := by
  unfold extract_text_content
  by_cases hcond : (selectorTruthy cs || optStrTruthy cos || optStrTruthy es) = true
  · rw [if_pos hcond]
    have h1 : (if selectorTruthy cs then collect_selected ext html (selectorArgList cs)
        else Except.ok []) = Except.ok [] := by
      by_cases ht : selectorTruthy cs
      · rw [if_pos ht]
        exact collect_selected_empty ext html hsel _
      · rw [if_neg ht]
    rw [h1, collect_code_empty ext html cos hsel, check_exclude_ok ext html es hsel]
    rfl
  · rw [if_neg hcond, htraf]

/-- Claim C10: when no content can be extracted, `process_url` maps the URL to
the literal sentinel "No content found" — not an error and not a filtered
outcome — skipping the search query and the content filters; the sync pass
does not count it as failed, fingerprints it, and (with no stored hash)
publishes it to the sink like ordinary content. -/
theorem C10_no_content_sentinel (ext : Extractor) (pr : Option BatchProgress)
    (url html : String) (a : UrlArgs) (sha256hex : String → String) (u : String)
    (hsel : ∀ s, ext.select html s = Except.ok [])
    (htraf : ext.trafilatura html = Except.ok none) :
    process_url ext pr url (.ok 200 html) a =
      (increment_processed pr, (url, "No content found"))
    ∧ isErrorContent "No content found" = false
    ∧ process_results sha256hex [{ url := u, last_content_hash := none }]
        [(u, "No content found")] =
      { urls_processed := 1, urls_failed := 0, urls_changed := 1,
        row_updates := [(u, sha256hex "No content found")],
        sink_calls := [(u, "No content found")] } := by
  have hne : isErrorContent "No content found" = false := by decide
  refine ⟨?_, hne, ?_⟩
  · simp [process_url, url_value, process_url_body,
      extract_text_content_empty ext html a.content_selector a.code_selector
        a.exclude_selector hsel htraf]
  · simp [process_results, stored_hash, hne, List.find?]

/-- Witness for C10: the extractor that finds nothing, with a search query and
filters configured that would reject anything, still yields the sentinel. -/
theorem C10_no_content_sentinel_witness :
    ((∀ s, emptyExtractor.select "<html></html>" s = Except.ok [])
      ∧ emptyExtractor.trafilatura "<html></html>" = Except.ok none)
    ∧ (process_url emptyExtractor none "u" (.ok 200 "<html></html>")
        { search_query := some "zzz", content_filters := some [("min_length", "99")] } =
        (increment_processed none, ("u", "No content found"))
      ∧ isErrorContent "No content found" = false
      ∧ process_results identityDigest [{ url := "u", last_content_hash := none }]
          [("u", "No content found")] =
        { urls_processed := 1, urls_failed := 0, urls_changed := 1,
          row_updates := [("u", identityDigest "No content found")],
          sink_calls := [("u", "No content found")] }) :=
  ⟨⟨fun _ => rfl, rfl⟩,
   C10_no_content_sentinel emptyExtractor none "u" "<html></html>"
     { search_query := some "zzz", content_filters := some [("min_length", "99")] }
     identityDigest "u" (fun _ => rfl) rfl⟩

/-! ## Error capture -/

/-- A failed selector validation in `extract_content` surfaces per URL as an
error value, before and independently of any download. -/
theorem extract_content_one_validate_error (oracle : ExtractOracle)
    (selectors : List String) (cos es : Option String) (url e : String)
    (hv : validate_selectors selectors cos es = Except.error e) :
    extract_content_one oracle selectors cos es url = s!"Error: {e}" := by
  simp [extract_content_one, hv]

/-- Claim C6: per-URL errors are captured as data, never raised: a raised
exception anywhere in `process_url`'s body becomes the mapped value
`Error: message`; for every oracle behavior the pipeline returns a mapping
with every URL present; and in `extract_content` a malformed selector is
rejected per URL before any download — the result is the same for any two
download/extraction oracles, every URL mapping to the validation error. -/
theorem C6_errors_as_data (bp : BatchProcessor) (ext : Extractor)
    (fetchOf : String → FetchOutcome) (urls : List String) (a : UrlArgs)
    (hbs : 0 < bp.batch_size) :
    (∀ (u : String) (pr : Option BatchProgress) (e : String),
      process_url_body ext (fetchOf u) a = Except.error e →
      process_url ext pr u (fetchOf u) a = (increment_processed pr, (u, s!"Error: {e}")))
    ∧ (∀ u ∈ urls,
      dict_get (process_urls bp ext fetchOf urls a).2 u = some (url_value ext (fetchOf u) a))
    ∧ (∀ (cs : Option SelectorArg) (cos es : Option String) (e : String)
        (o1 o2 : ExtractOracle) (urls2 : List String),
        validate_selectors (normalize_content_selector cs) cos es = Except.error e →
        extract_content o1 urls2 cs cos es = extract_content o2 urls2 cs cos es
        ∧ ∀ p ∈ extract_content o1 urls2 cs cos es, p.2 = s!"Error: {e}") := by
  refine ⟨?_, ?_, ?_⟩
  · intro u pr e hbody
    simp [process_url, url_value, hbody]
  · intro u hu
    simp only [process_urls]
    rw [outer_fold_snd]
    apply dict_get_of_shape (fun u => url_value ext (fetchOf u) a)
    · exact chunkfold_shape _ _ _ (by simp)
    · rw [chunkfold_keys (fun u => url_value ext (fetchOf u) a) _ _ u,
        chunksOf_flatten bp.batch_size hbs urls]
      simp [hu]
  · intro cs cos es e o1 o2 urls2 hv
    constructor
    · simp only [extract_content]
      apply List.map_congr_left
      intro url _
      rw [extract_content_one_validate_error o1 _ cos es url e hv,
        extract_content_one_validate_error o2 _ cos es url e hv]
    · intro p hp
      simp only [extract_content] at hp
      rcases List.mem_map.mp hp with ⟨url, _, hurl⟩
      rw [← hurl]
      exact extract_content_one_validate_error o1 _ cos es url e hv

/-- Witness for C6: one URL with a raising fetch, and the selector
"div:hover", which the validator rejects, shown independent of two distinct
oracles. -/
theorem C6_errors_as_data_witness :
    (0 < (({} : BatchProcessor)).batch_size
      ∧ process_url_body emptyExtractor ((fun _ => FetchOutcome.exn "boom") "a") {} =
          Except.error "boom"
      ∧ ("a" : String) ∈ ["a"]
      ∧ validate_selectors (normalize_content_selector (some (.str "div:hover"))) none none =
          Except.error "Invalid CSS selector: div:hover")
    ∧ (process_url emptyExtractor none "a" ((fun _ => FetchOutcome.exn "boom") "a") {} =
        (increment_processed none, ("a", "Error: boom")))
    ∧ dict_get (process_urls {} emptyExtractor (fun _ => FetchOutcome.exn "boom") ["a"] {}).2
        "a" = some (url_value emptyExtractor ((fun _ => FetchOutcome.exn "boom") "a") {})
    ∧ (extract_content trivialExtractOracle ["u"] (some (.str "div:hover")) none none =
        extract_content (failingExtractOracle "beautifulsoup error") ["u"]
          (some (.str "div:hover")) none none
      ∧ ∀ p ∈ extract_content trivialExtractOracle ["u"] (some (.str "div:hover")) none none,
          p.2 = "Error: Invalid CSS selector: div:hover") :=
  ⟨⟨by decide, rfl, by decide, rfl⟩,
   (C6_errors_as_data {} emptyExtractor (fun _ => FetchOutcome.exn "boom") ["a"] {}
      (by decide)).1 "a" none "boom" rfl,
   (C6_errors_as_data {} emptyExtractor (fun _ => FetchOutcome.exn "boom") ["a"] {}
      (by decide)).2.1 "a" (by decide),
   (C6_errors_as_data {} emptyExtractor (fun _ => FetchOutcome.exn "boom") ["a"] {}
      (by decide)).2.2 (some (.str "div:hover")) none none "Invalid CSS selector: div:hover"
      trivialExtractOracle (failingExtractOracle "beautifulsoup error") ["u"] rfl⟩

/-! ## Lemmas about the change-detection loop -/

theorem process_results_foldl (sha256hex : String → String) (tracked : List TrackedRow) :
    ∀ (rs : List (String × String)) (acc : PassEffects),
      rs.foldl (fun acc p =>
        if isErrorContent p.2 then acc
        else
          let new_hash := sha256hex p.2
          let old_hash := stored_hash tracked p.1
          if !(old_hash == some new_hash) then
            { acc with
              urls_changed := acc.urls_changed + 1
              row_updates := acc.row_updates ++ [(p.1, new_hash)]
              sink_calls := acc.sink_calls ++ [(p.1, p.2)] }
          else acc) acc =
      { acc with
        urls_changed := acc.urls_changed +
          (rs.filter (sync_changed sha256hex tracked)).length
        row_updates := acc.row_updates ++
          (rs.filter (sync_changed sha256hex tracked)).map (fun p => (p.1, sha256hex p.2))
        sink_calls := acc.sink_calls ++ rs.filter (sync_changed sha256hex tracked) } := by
  intro rs
  induction rs with
  | nil => intro acc; simp
  | cons p rest ih =>
    intro acc
    rw [List.foldl_cons]
    by_cases he : isErrorContent p.2 = true
    · have hch : sync_changed sha256hex tracked p = false := by
        simp [sync_changed, he]
      simp only [he, if_true, reduceIte]
      rw [ih acc]
      simp [List.filter_cons, hch]
    · by_cases heq : (stored_hash tracked p.1 == some (sha256hex p.2)) = true
      · have hch : sync_changed sha256hex tracked p = false := by
          simp [sync_changed, he, heq]
        simp only [he, heq, Bool.not_true, Bool.false_eq_true, if_false, reduceIte]
        rw [ih acc]
        simp [List.filter_cons, hch]
      · have hch : sync_changed sha256hex tracked p = true := by
          simp only [sync_changed, Bool.and_eq_true, Bool.not_eq_true']
          exact ⟨by simpa using he, by simpa using heq⟩
        simp only [he, heq, Bool.not_false, Bool.false_eq_true, if_false, if_true, reduceIte]
        rw [ih]
        simp only [List.filter_cons, hch, if_true, List.map_cons, List.length_cons,
          PassEffects.mk.injEq, List.append_assoc, List.cons_append, List.singleton_append,
          List.nil_append, eq_self_iff_true, true_and, and_true]
        omega

/-- The characterization of one change-detection pass: the sink is invoked
exactly on the changed entries, the rows updated are exactly their new
hashes, and the counters summarize the results. -/
theorem process_results_spec (sha256hex : String → String) (tracked : List TrackedRow)
    (results : List (String × String)) :
    process_results sha256hex tracked results =
      { urls_processed := results.length
        urls_failed := (results.filter (fun p => isErrorContent p.2)).length
        urls_changed := (results.filter (sync_changed sha256hex tracked)).length
        row_updates :=
          (results.filter (sync_changed sha256hex tracked)).map (fun p => (p.1, sha256hex p.2))
        sink_calls := results.filter (sync_changed sha256hex tracked) } := by
  unfold process_results
  rw [process_results_foldl]
  simp

theorem key_determines_value :
    ∀ (rs : List (String × String)) (u c c2 : String),
      (rs.map Prod.fst).Nodup → (u, c) ∈ rs → (u, c2) ∈ rs → c = c2 := by
  intro rs
  induction rs with
  | nil => intro u c c2 _ h; simp at h
  | cons q rest ih =>
    intro u c c2 hnd h1 h2
    rw [List.map_cons, List.nodup_cons] at hnd
    rcases List.mem_cons.mp h1 with e1 | m1 <;> rcases List.mem_cons.mp h2 with e2 | m2
    · have : (u, c) = (u, c2) := e1.trans e2.symm
      exact (Prod.mk.injEq u c u c2 ▸ this).2
    · exfalso
      apply hnd.1
      have hq1 : q.1 = u := by rw [← e1]
      rw [hq1]
      simpa using List.mem_map_of_mem Prod.fst m2
    · exfalso
      apply hnd.1
      have hq1 : q.1 = u := by rw [← e2]
      rw [hq1]
      simpa using List.mem_map_of_mem Prod.fst m1
    · exact ih u c c2 hnd.2 m1 m2

theorem countP_key_zero (chg : String × String → Bool) (u : String)
    (rs : List (String × String)) (hu : u ∉ rs.map Prod.fst) :
    (rs.filter chg).countP (fun q => q.1 == u) = 0 := by
  rw [List.countP_eq_zero]
  intro q hq hbeq
  apply hu
  have hq2 : q ∈ rs := List.mem_of_mem_filter hq
  have : q.1 = u := by simpa using hbeq
  exact this ▸ List.mem_map_of_mem Prod.fst hq2

theorem countP_key_filter (chg : String × String → Bool) :
    ∀ (rs : List (String × String)) (u c : String),
      (rs.map Prod.fst).Nodup → (u, c) ∈ rs →
      (rs.filter chg).countP (fun q => q.1 == u) = if chg (u, c) = true then 1 else 0 := by
  intro rs
  induction rs with
  | nil => intro u c _ h; simp at h
  | cons q rest ih =>
    intro u c hnd hm
    rw [List.map_cons, List.nodup_cons] at hnd
    rcases List.mem_cons.mp hm with e | m
    · cases e.symm
      rw [List.filter_cons]
      have hz : (rest.filter chg).countP (fun q => q.1 == u) = 0 :=
        countP_key_zero chg u rest (by simpa using hnd.1)
      by_cases hc : chg (u, c) = true
      · rw [if_pos hc, List.countP_cons, hz]
        simp [hc]
      · rw [if_neg hc, hz, if_neg hc]
    · have hu_rest : u ∈ rest.map Prod.fst := by
        have := List.mem_map_of_mem Prod.fst m
        simpa using this
      have hqu : ¬(q.1 = u) := fun h => hnd.1 (h ▸ hu_rest)
      rw [List.filter_cons]
      by_cases hcq : chg q = true
      · rw [if_pos hcq, List.countP_cons]
        have hbeq : (q.1 == u) = false := by simpa using hqu
        rw [hbeq]
        simp only [Bool.false_eq_true, if_false, Nat.add_zero]
        exact ih u c hnd.2 m
      · rw [if_neg hcq]
        exact ih u c hnd.2 m

/-! ## Lemmas about tracked-row updates -/

theorem stored_hash_cons (row : TrackedRow) (rest : List TrackedRow) (u : String) :
    stored_hash (row :: rest) u =
      if row.url == u then row.last_content_hash else stored_hash rest u := by
  cases h : (row.url == u) <;> simp [stored_hash, List.find?, h]

theorem apply_row_update_urls (tracked : List TrackedRow) (upd : String × String) :
    (apply_row_update tracked upd).map TrackedRow.url = tracked.map TrackedRow.url := by
  unfold apply_row_update
  rw [List.map_map]
  apply List.map_congr_left
  intro row _
  by_cases h : row.url = upd.1 <;> simp [h]

theorem apply_row_updates_urls (upds : List (String × String)) :
    ∀ (tracked : List TrackedRow),
      (apply_row_updates tracked upds).map TrackedRow.url = tracked.map TrackedRow.url := by
  induction upds with
  | nil => intro t; rfl
  | cons upd rest ih =>
    intro t
    unfold apply_row_updates at ih ⊢
    rw [List.foldl_cons, ih (apply_row_update t upd), apply_row_update_urls]

theorem stored_hash_update_other (v h u : String) (hne : ¬(u = v)) :
    ∀ (tracked : List TrackedRow),
      stored_hash (apply_row_update tracked (v, h)) u = stored_hash tracked u := by
  intro tracked
  induction tracked with
  | nil => rfl
  | cons row rest ih =>
    have hrow : apply_row_update (row :: rest) (v, h) =
        (if row.url == v then { row with last_content_hash := some h } else row) ::
          apply_row_update rest (v, h) := rfl
    rw [hrow, stored_hash_cons, stored_hash_cons, ih]
    by_cases hrv : (row.url == v) = true
    · have hv : row.url = v := by simpa using hrv
      have hru : (row.url == u) = false := by
        rw [hv]
        simp only [beq_eq_false_iff_ne, ne_eq]
        exact fun hh => hne hh.symm
      simp [hrv, hru]
    · simp [hrv]

theorem stored_hash_update_self (u h : String) :
    ∀ (tracked : List TrackedRow), u ∈ tracked.map TrackedRow.url →
      stored_hash (apply_row_update tracked (u, h)) u = some h := by
  intro tracked
  induction tracked with
  | nil => intro hm; simp at hm
  | cons row rest ih =>
    intro hm
    have hrow : apply_row_update (row :: rest) (u, h) =
        (if row.url == u then { row with last_content_hash := some h } else row) ::
          apply_row_update rest (u, h) := rfl
    rw [hrow, stored_hash_cons]
    by_cases hru : (row.url == u) = true
    · simp [hru]
    · simp only [hru, Bool.false_eq_true, if_false, reduceIte]
      rw [List.map_cons, List.mem_cons] at hm
      rcases hm with hm | hm
      · exact absurd (by simp [hm.symm] : (row.url == u) = true) (by simp [hru])
      · exact ih hm

theorem stored_hash_updates_not_mem :
    ∀ (upds : List (String × String)) (tracked : List TrackedRow) (u : String),
      u ∉ upds.map Prod.fst →
      stored_hash (apply_row_updates tracked upds) u = stored_hash tracked u := by
  intro upds
  induction upds with
  | nil => intro t u _; rfl
  | cons upd rest ih =>
    intro t u hu
    rw [List.map_cons, List.mem_cons] at hu
    push_neg at hu
    unfold apply_row_updates at ih ⊢
    rw [List.foldl_cons, ih _ u hu.2]
    obtain ⟨v, k⟩ := upd
    exact stored_hash_update_other v k u hu.1 t

theorem stored_hash_updates_mem :
    ∀ (upds : List (String × String)) (tracked : List TrackedRow) (u h : String),
      (u, h) ∈ upds → (upds.map Prod.fst).Nodup → u ∈ tracked.map TrackedRow.url →
      stored_hash (apply_row_updates tracked upds) u = some h := by
  intro upds
  induction upds with
  | nil => intro t u h hm; simp at hm
  | cons upd rest ih =>
    intro t u h hm hnd hrow
    rw [List.map_cons, List.nodup_cons] at hnd
    unfold apply_row_updates at ih ⊢
    rw [List.foldl_cons]
    rcases List.mem_cons.mp hm with e | m
    · cases e.symm
      have h1 : stored_hash (apply_row_update t (u, h)) u = some h :=
        stored_hash_update_self u h t hrow
      have h2 : u ∉ rest.map Prod.fst := by simpa using hnd.1
      calc stored_hash (rest.foldl apply_row_update (apply_row_update t (u, h))) u
          = stored_hash (apply_row_update t (u, h)) u :=
            stored_hash_updates_not_mem rest _ u h2
        _ = some h := h1
    · have hne : ¬(u = upd.1) := by
        intro hh
        apply hnd.1
        rw [← hh]
        exact List.mem_map_of_mem Prod.fst m
      apply ih _ u h m hnd.2
      rw [apply_row_update_urls]
      exact hrow

/-- Claim C1: in a sync pass, a non-error result entry is treated as changed
iff the fingerprint of its text differs from the stored hash; a missing
stored hash always counts as changed; exactly the changed URLs get a row
update (new hash together with the timestamp) and exactly one sink
invocation each; and a second pass over byte-identical results against the
updated rows detects no change and invokes the sink for nothing. -/
theorem C1_change_detection (sha256hex : String → String) (tracked : List TrackedRow)
    (results : List (String × String))
    (hkeys : (results.map Prod.fst).Nodup)
    (hcov : ∀ p ∈ results, p.1 ∈ tracked.map TrackedRow.url) :
    (process_results sha256hex tracked results).sink_calls =
        results.filter (sync_changed sha256hex tracked)
    ∧ (process_results sha256hex tracked results).row_updates =
        (results.filter (sync_changed sha256hex tracked)).map (fun p => (p.1, sha256hex p.2))
    ∧ (process_results sha256hex tracked results).urls_changed =
        (results.filter (sync_changed sha256hex tracked)).length
    ∧ (process_results sha256hex tracked results).urls_processed = results.length
    ∧ (process_results sha256hex tracked results).urls_failed =
        (results.filter (fun p => isErrorContent p.2)).length
    ∧ (∀ u c, (u, c) ∈ results → isErrorContent c = false → stored_hash tracked u = none →
        (u, c) ∈ (process_results sha256hex tracked results).sink_calls)
    ∧ (∀ u c, (u, c) ∈ results →
        (process_results sha256hex tracked results).sink_calls.countP (fun q => q.1 == u) =
          if sync_changed sha256hex tracked (u, c) = true then 1 else 0)
    ∧ (process_results sha256hex
        (apply_row_updates tracked (process_results sha256hex tracked results).row_updates)
        results).sink_calls = []
    ∧ (process_results sha256hex
        (apply_row_updates tracked (process_results sha256hex tracked results).row_updates)
        results).urls_changed = 0 := by
  have hspec := process_results_spec sha256hex tracked results
  -- keys of the row updates are nodup (a sub-sequence of the result keys)
  have hupdkeys : ((process_results sha256hex tracked results).row_updates.map
      Prod.fst).Nodup := by
    rw [hspec]
    have h1 : ((results.filter (sync_changed sha256hex tracked)).map
        (fun p : String × String => (p.1, sha256hex p.2))).map Prod.fst =
        (results.filter (sync_changed sha256hex tracked)).map Prod.fst := by
      rw [List.map_map]
      rfl
    show (((results.filter (sync_changed sha256hex tracked)).map
        (fun p : String × String => (p.1, sha256hex p.2))).map Prod.fst).Nodup
    rw [h1]
    exact hkeys.sublist (List.Sublist.map Prod.fst (List.filter_sublist results))
  -- the stored hash after the pass equals the fingerprint, for every non-error entry
  have hafter : ∀ u c, (u, c) ∈ results → isErrorContent c = false →
      stored_hash (apply_row_updates tracked
        (process_results sha256hex tracked results).row_updates) u =
        some (sha256hex c) := by
    intro u c hm he
    by_cases hch : sync_changed sha256hex tracked (u, c) = true
    · have hmem : (u, sha256hex c) ∈
          (process_results sha256hex tracked results).row_updates := by
        rw [hspec]
        exact List.mem_map_of_mem _ (List.mem_filter.mpr ⟨hm, hch⟩)
      exact stored_hash_updates_mem _ tracked u (sha256hex c) hmem hupdkeys (hcov (u, c) hm)
    · have hnot : u ∉ (process_results sha256hex tracked results).row_updates.map
          Prod.fst := by
        rw [hspec]
        intro hmem
        simp only [List.map_map] at hmem
        rcases List.mem_map.mp hmem with ⟨p, hp, hpe⟩
        rcases List.mem_filter.mp hp with ⟨hpres, hpch⟩
        have hp1 : p.1 = u := by simpa using hpe
        have hc2 : p.2 = c := by
          apply key_determines_value results u p.2 c hkeys
          · rw [← hp1]; exact hpres
          · exact hm
        apply hch
        have : p = (u, c) := Prod.ext hp1 hc2
        rw [← this]
        exact hpch
      rw [stored_hash_updates_not_mem _ tracked u hnot]
      -- not changed and not an error: the stored hash already equals the fingerprint
      simp only [sync_changed, Bool.and_eq_true, Bool.not_eq_true'] at hch
      rcases Decidable.not_and_iff_or_not.mp hch with h1 | h1
      · exact absurd he (by simpa using h1)
      · have : (stored_hash tracked u == some (sha256hex c)) = true := by
          rcases Bool.eq_false_or_eq_true (stored_hash tracked u == some (sha256hex c)) with
            hx | hx
          · exact hx
          · exact absurd hx h1
        simpa using this
  have hsecond : results.filter (sync_changed sha256hex
      (apply_row_updates tracked (process_results sha256hex tracked results).row_updates)) =
      [] := by
    rw [List.filter_eq_nil_iff]
    intro p hp
    obtain ⟨u, c⟩ := p
    intro hch
    simp only [sync_changed, Bool.and_eq_true, Bool.not_eq_true'] at hch
    rcases hch with ⟨he, hne⟩
    rw [hafter u c hp he] at hne
    simp at hne
  refine ⟨by rw [hspec], by rw [hspec], by rw [hspec], by rw [hspec], by rw [hspec],
    ?_, ?_, ?_, ?_⟩
  · intro u c hm he hstored
    rw [hspec]
    apply List.mem_filter.mpr
    refine ⟨hm, ?_⟩
    simp [sync_changed, he, hstored]
  · intro u c hm
    rw [hspec]
    exact countP_key_filter (sync_changed sha256hex tracked) results u c hkeys hm
  · rw [process_results_spec, hsecond]
  · rw [process_results_spec, hsecond]
    rfl

/-- Witness for C1: two tracked URLs, one with no stored hash (first sync, so
changed) and one whose stored hash already matches its unchanged content. -/
theorem C1_change_detection_witness :
    ((([(("u" : String), ("abc" : String)), ("v", "old")]).map Prod.fst).Nodup
      ∧ ∀ p ∈ [(("u" : String), ("abc" : String)), ("v", "old")],
          p.1 ∈ ([{ url := "u", last_content_hash := none },
                  { url := "v", last_content_hash := some "old" }] : List TrackedRow).map
            TrackedRow.url)
    ∧ ((process_results identityDigest
          [{ url := "u", last_content_hash := none },
           { url := "v", last_content_hash := some "old" }]
          [("u", "abc"), ("v", "old")]).sink_calls =
        ([("u", "abc"), ("v", "old")]).filter
          (sync_changed identityDigest
            [{ url := "u", last_content_hash := none },
             { url := "v", last_content_hash := some "old" }])
      ∧ (process_results identityDigest
          [{ url := "u", last_content_hash := none },
           { url := "v", last_content_hash := some "old" }]
          [("u", "abc"), ("v", "old")]).row_updates =
        (([("u", "abc"), ("v", "old")]).filter
          (sync_changed identityDigest
            [{ url := "u", last_content_hash := none },
             { url := "v", last_content_hash := some "old" }])).map
          (fun p => (p.1, identityDigest p.2))
      ∧ (process_results identityDigest
          [{ url := "u", last_content_hash := none },
           { url := "v", last_content_hash := some "old" }]
          [("u", "abc"), ("v", "old")]).urls_changed =
        (([("u", "abc"), ("v", "old")]).filter
          (sync_changed identityDigest
            [{ url := "u", last_content_hash := none },
             { url := "v", last_content_hash := some "old" }])).length
      ∧ (process_results identityDigest
          [{ url := "u", last_content_hash := none },
           { url := "v", last_content_hash := some "old" }]
          [("u", "abc"), ("v", "old")]).urls_processed = ([("u", "abc"), ("v", "old")]).length
      ∧ (process_results identityDigest
          [{ url := "u", last_content_hash := none },
           { url := "v", last_content_hash := some "old" }]
          [("u", "abc"), ("v", "old")]).urls_failed =
        (([("u", "abc"), ("v", "old")]).filter (fun p => isErrorContent p.2)).length
      ∧ (∀ u c, (u, c) ∈ [(("u" : String), ("abc" : String)), ("v", "old")] →
          isErrorContent c = false →
          stored_hash [{ url := "u", last_content_hash := none },
                       { url := "v", last_content_hash := some "old" }] u = none →
          (u, c) ∈ (process_results identityDigest
            [{ url := "u", last_content_hash := none },
             { url := "v", last_content_hash := some "old" }]
            [("u", "abc"), ("v", "old")]).sink_calls)
      ∧ (∀ u c, (u, c) ∈ [(("u" : String), ("abc" : String)), ("v", "old")] →
          (process_results identityDigest
            [{ url := "u", last_content_hash := none },
             { url := "v", last_content_hash := some "old" }]
            [("u", "abc"), ("v", "old")]).sink_calls.countP (fun q => q.1 == u) =
          if sync_changed identityDigest
              [{ url := "u", last_content_hash := none },
               { url := "v", last_content_hash := some "old" }] (u, c) = true then 1 else 0)
      ∧ (process_results identityDigest
          (apply_row_updates
            [{ url := "u", last_content_hash := none },
             { url := "v", last_content_hash := some "old" }]
            (process_results identityDigest
              [{ url := "u", last_content_hash := none },
               { url := "v", last_content_hash := some "old" }]
              [("u", "abc"), ("v", "old")]).row_updates)
          [("u", "abc"), ("v", "old")]).sink_calls = []
      ∧ (process_results identityDigest
          (apply_row_updates
            [{ url := "u", last_content_hash := none },
             { url := "v", last_content_hash := some "old" }]
            (process_results identityDigest
              [{ url := "u", last_content_hash := none },
               { url := "v", last_content_hash := some "old" }]
              [("u", "abc"), ("v", "old")]).row_updates)
          [("u", "abc"), ("v", "old")]).urls_changed = 0) :=
  ⟨⟨by decide, by decide⟩,
   C1_change_detection identityDigest
     [{ url := "u", last_content_hash := none },
      { url := "v", last_content_hash := some "old" }]
     [("u", "abc"), ("v", "old")] (by decide) (by decide)⟩

end Codaapps


